import Mathlib

/-!
Verification of the SmmuDxe SMMUv3 driver core (ArmPkg/Drivers/SmmuDxe): a
shallow embedding of the page-table manager from IoMmu.c, the command-queue
protocol from SmmuV3Util.c and SmmuV3.h, and the stream-table-entry builder
from SmmuDxe.c, together with theorems about their behaviour.

Machine integers (UINT64) are modelled as Nat, with explicit 64-bit masks at
the places where the C code truncates; page-table memory is a total map from
node address and entry index to the stored 64-bit entry; the page allocator
(AllocateAlignedPages) is an explicit list of the page addresses it will hand
out, the empty list modelling exhaustion.
-/

namespace Smmu

/-- PAGE_TABLE_READ_BIT = 0x1 << 6 (IoMmu.c). -/
def PAGE_TABLE_READ_BIT : Nat := 0x40

/-- PAGE_TABLE_WRITE_BIT = 0x1 << 7 (IoMmu.c). -/
def PAGE_TABLE_WRITE_BIT : Nat := 0x80

/-- PAGE_TABLE_ENTRY_VALID_BIT = 0x1 (IoMmu.c). -/
def PAGE_TABLE_ENTRY_VALID_BIT : Nat := 1

/-- PAGE_TABLE_BLOCK_OFFSET = 0xFFF (IoMmu.c). -/
def PAGE_TABLE_BLOCK_OFFSET : Nat := 0xFFF

/-- PAGE_TABLE_ACCESS_FLAG = 0x1 << 10 (IoMmu.c). -/
def PAGE_TABLE_ACCESS_FLAG : Nat := 0x400

/-- PAGE_TABLE_DESCRIPTOR = 0x1 << 1 (IoMmu.c). -/
def PAGE_TABLE_DESCRIPTOR : Nat := 0x2

/-- ~PAGE_TABLE_BLOCK_OFFSET as a UINT64 value. -/
def NOT_BLOCK_OFFSET : Nat := 0xFFFFFFFFFFFFF000

/-- ~PAGE_TABLE_ENTRY_VALID_BIT as a UINT64 value. -/
def NOT_VALID : Nat := 0xFFFFFFFFFFFFFFFE

/-- ~(PAGE_TABLE_READ_BIT | PAGE_TABLE_WRITE_BIT) as a UINT64 value. -/
def NOT_RW : Nat := 0xFFFFFFFFFFFFFF3F

/-- PAGE_TABLE_INDEX(VA, LEVEL) = ((VA) >> (12 + (9 * (4 - 1 - LEVEL)))) & 0x1FF. -/
def IDX (va lvl : Nat) : Nat := (va >>> (12 + 9 * (3 - lvl))) &&& 0x1FF

/-- EFI_STATUS values returned by the modelled functions.  `uninit` stands for
the indeterminate value of the local `Status` variable of UpdatePageTable when
its loop body never executes (the C code returns an uninitialized local in
that case). -/
inductive Status where
  | success
  | invalidParameter
  | outOfResources
  | timeout
  | uninit
  deriving DecidableEq

/-- EFI_ERROR(Status): true for the error codes the driver can produce. -/
def isError : Status → Bool
  | Status.invalidParameter => true
  | Status.outOfResources => true
  | Status.timeout => true
  | _ => false

/-- Page-table memory: node address → entry index → stored 64-bit entry.
Only indices 0..511 of a node are ever used. -/
abbrev Mem := Nat → Nat → Nat

/-- Store value v into entry i of the node at address a. -/
def writeEnt (m : Mem) (a i v : Nat) : Mem :=
  fun w j => if w = a then (if j = i then v else m w j) else m w j

/-- ZeroMem over a whole node (a freshly allocated page). -/
def zeroNode (m : Mem) (a : Nat) : Mem :=
  fun w j => if w = a then 0 else m w j

/-- Page-table state: the memory holding all page-table nodes plus the list of
page addresses AllocateAlignedPages will return next (in order).  An empty
list models allocator exhaustion (AllocateAlignedPages returning NULL). -/
structure PTState where
  mem : Mem
  alloc : List Nat

/-- UpdateFlags (IoMmu.c): the new value of the entry.  The Table == NULL
check is modelled at the call sites (levelStep / leafStep), where the current
node address plays the role of the pointer. -/
def updateFlags (e : Nat) (setFlagsOnly : Bool) (flags : Nat) : Nat :=
  if setFlagsOnly then
    if flags ≠ 0 then e ||| flags
    else e &&& NOT_RW
  else e ||| flags

/-- e & ~PAGE_TABLE_BLOCK_OFFSET: the child-node address stored in an
intermediate entry (also used to mask output addresses). -/
def childAddr (e : Nat) : Nat := e &&& NOT_BLOCK_OFFSET

/-- One iteration of the level loop of UpdateMapping (IoMmu.c, levels 0..2):
allocate and zero a fresh node if the slot is empty, set the valid bit when
requested, apply UpdateFlags, and step to the child node.  Returns the status,
the new state, and the next value of Current.  The C code dereferences Current
before UpdateFlags performs its NULL check; the model keeps that order (the
stores to node address 0 stand for the stores the C would perform through a
near-null pointer before UpdateFlags reports EFI_INVALID_PARAMETER). -/
def levelStep (valid setFlagsOnly : Bool) (va flags lvl : Nat) (s : PTState) (cur : Nat) :
    Status × PTState × Nat :=
  let i := IDX va lvl
  let e := s.mem cur i
  if e = 0 then
    match s.alloc with
    | [] => (Status.outOfResources, s, 0)
    | f :: rest =>
      let m1 := writeEnt (zeroNode s.mem f) cur i f
      let m2 := if !setFlagsOnly && valid then writeEnt m1 cur i (m1 cur i ||| PAGE_TABLE_ENTRY_VALID_BIT) else m1
      if cur = 0 then (Status.invalidParameter, { mem := m2, alloc := rest }, 0)
      else
        let m3 := writeEnt m2 cur i (updateFlags (m2 cur i) setFlagsOnly flags)
        (Status.success, { mem := m3, alloc := rest }, childAddr (m3 cur i))
  else
    let m2 := if !setFlagsOnly && valid then writeEnt s.mem cur i (e ||| PAGE_TABLE_ENTRY_VALID_BIT) else s.mem
    if cur = 0 then (Status.invalidParameter, { mem := m2, alloc := s.alloc }, 0)
    else
      let m3 := writeEnt m2 cur i (updateFlags (m2 cur i) setFlagsOnly flags)
      (Status.success, { mem := m3, alloc := s.alloc }, childAddr (m3 cur i))

/-- The leaf-level tail of UpdateMapping (IoMmu.c).  The returned Bool records
whether the "Page already mapped" DEBUG line was emitted.  When Current is
NULL the C code skips the leaf work and returns the status left by the last
loop iteration (EFI_SUCCESS).  The two consecutive stores of the valid branch
(assign PA, then OR the valid bit) are collapsed into one store of the
composed value. -/
def leafStep (s : PTState) (cur va pa flags : Nat) (valid setFlagsOnly : Bool) :
    Status × PTState × Bool :=
  if cur = 0 then (Status.success, s, false)
  else
    let i := IDX va 3
    let e := s.mem cur i
    let logged := valid && (e &&& PAGE_TABLE_ENTRY_VALID_BIT != 0)
    let s1 :=
      if !setFlagsOnly then
        if valid then { s with mem := writeEnt s.mem cur i ((pa &&& NOT_BLOCK_OFFSET) ||| PAGE_TABLE_ENTRY_VALID_BIT) }
        else { s with mem := writeEnt s.mem cur i (e &&& NOT_VALID) }
      else s
    (Status.success, { s1 with mem := writeEnt s1.mem cur i (updateFlags (s1.mem cur i) setFlagsOnly flags) }, logged)

/-- UpdateMapping (IoMmu.c): walk levels 0..2 from the root, then update the
leaf entry. -/
def updateMapping (s : PTState) (root va pa flags : Nat) (valid setFlagsOnly : Bool) :
    Status × PTState × Bool :=
  if root = 0 then (Status.invalidParameter, s, false)
  else
    let r0 := levelStep valid setFlagsOnly va flags 0 s root
    if r0.1 ≠ Status.success then (r0.1, r0.2.1, false)
    else
      let r1 := levelStep valid setFlagsOnly va flags 1 r0.2.1 r0.2.2
      if r1.1 ≠ Status.success then (r1.1, r1.2.1, false)
      else
        let r2 := levelStep valid setFlagsOnly va flags 2 r1.2.1 r1.2.2
        if r2.1 ≠ Status.success then (r2.1, r2.2.1, false)
        else leafStep r2.2.1 r2.2.2 va pa flags valid setFlagsOnly

/-- The loop of UpdatePageTable (IoMmu.c) over the page-aligned units of the
range; returns the last status (uninit when the list is empty, matching the
uninitialized local of the C code) and the final state. -/
def runPages (root flags : Nat) (valid setFlagsOnly : Bool) : List Nat → PTState → Status × PTState
  | [], s => (Status.uninit, s)
  | p :: rest, s =>
    let r := updateMapping s root p p flags valid setFlagsOnly
    if isError r.1 then (r.1, r.2.1)
    else if rest.isEmpty then (r.1, r.2.1)
    else runPages root flags valid setFlagsOnly rest r.2.1

/-- The page-aligned addresses visited by UpdatePageTable for (addr, bytes):
from ALIGN_DOWN_BY(addr, EFI_PAGE_SIZE) up to ALIGN_UP_BY(addr + bytes,
EFI_PAGE_SIZE), where the sum wraps modulo 2^64 exactly as the UINT64
arithmetic of the C code does. -/
def pageList (addr bytes : Nat) : List Nat :=
  let start := addr &&& NOT_BLOCK_OFFSET
  let stop := ((addr + bytes + PAGE_TABLE_BLOCK_OFFSET) % 2 ^ 64) &&& NOT_BLOCK_OFFSET
  (List.range ((stop - start) / 4096)).map (fun j => start + 4096 * j)

/-- UpdatePageTable (IoMmu.c). -/
def updatePageTable (s : PTState) (root addr bytes flags : Nat) (valid setFlagsOnly : Bool) :
    Status × PTState :=
  runPages root flags valid setFlagsOnly (pageList addr bytes) s

/-- IOMMU_MAP_INFO (IoMmu.c). -/
structure MapInfo where
  numberOfBytes : Nat
  va : Nat
  pa : Nat
  deriving DecidableEq

/-- Modelled from the spec: the four command constructors used by the driver
(SMMUV3_BUILD_CMD_CFGI_ALL, SMMUV3_BUILD_CMD_TLBI_NSNH_ALL,
SMMUV3_BUILD_CMD_TLBI_EL2_ALL, SMMUV3_BUILD_CMD_SYNC_NO_INTERRUPT, declared in
SmmuV3Registers.h, which is not in the sources) build fixed-layout command
words for four distinct command kinds: invalidate-all-configuration-cache, the
two invalidate-all-TLB variants, and the synchronization command.  Only the
kind of each command matters for the theorems below. -/
inductive Cmd where
  | cfgiAll
  | tlbiNsnhAll
  | tlbiEl2All
  | syncNoInterrupt
  deriving DecidableEq

/-- IoMmuMap (IoMmu.c): update the page table over the host range with the
VMSAv8-64 access-flag and table-descriptor flags and valid = TRUE, then
return the identity-mapped device address inside the mapping handle. -/
def ioMmuMap (s : PTState) (root hostAddress bytes : Nat) : Status × PTState × Option MapInfo :=
  let flags := PAGE_TABLE_ACCESS_FLAG ||| PAGE_TABLE_DESCRIPTOR
  let r := updatePageTable s root hostAddress bytes flags true false
  if isError r.1 then (r.1, r.2, none)
  else (r.1, r.2, some { numberOfBytes := bytes, va := hostAddress, pa := hostAddress })

/-- IoMmuUnmap (IoMmu.c): invalidate the mapped range in the page table, then
submit TLBI_NSNH_ALL, TLBI_EL2_ALL and a CMD_SYNC through SmmuV3SendCommand
(whose return values the C code ignores).  The returned list is the sequence
of commands handed to SmmuV3SendCommand. -/
def ioMmuUnmap (s : PTState) (root : Nat) (mapping : Option MapInfo) :
    Status × PTState × List Cmd :=
  match mapping with
  | none => (Status.invalidParameter, s, [])
  | some mi =>
    let r := updatePageTable s root mi.pa mi.numberOfBytes 0 false false
    if isError r.1 then (r.1, r.2, [])
    else (Status.success, r.2, [Cmd.tlbiNsnhAll, Cmd.tlbiEl2All, Cmd.syncNoInterrupt])

/-- IoMmuSetAttribute (IoMmu.c): a NULL mapping returns EFI_SUCCESS at once;
otherwise perform a flags-only page-table update with
PAGE_TABLE_READ_WRITE_FROM_IOMMU_ACCESS(IoMmuAccess) = IoMmuAccess << 6,
truncated to 64 bits as the UINT64 arithmetic does. -/
def ioMmuSetAttribute (s : PTState) (root : Nat) (mapping : Option MapInfo) (access : Nat) :
    Status × PTState :=
  match mapping with
  | none => (Status.success, s)
  | some mi =>
    let r := updatePageTable s root mi.pa mi.numberOfBytes ((access <<< 6) % 2 ^ 64) false true
    (r.1, r.2)

/-! ### Command/event queue engine (SmmuV3.h, SmmuV3Util.c) -/

/-- SMMUV3_IS_QUEUE_EMPTY (SmmuV3.h): the producer and consumer indices are
equal and their wrap bits are equal. -/
def SMMUV3_IS_QUEUE_EMPTY (producerIndex producerWrap consumerIndex consumerWrap : Nat) : Bool :=
  producerIndex == consumerIndex && producerWrap == consumerWrap

/-- SMMUV3_IS_QUEUE_FULL (SmmuV3.h): the producer and consumer indices are
equal and their wrap bits differ. -/
def SMMUV3_IS_QUEUE_FULL (producerIndex producerWrap consumerIndex consumerWrap : Nat) : Bool :=
  producerIndex == consumerIndex && producerWrap != consumerWrap

/-- Queue index bits of a raw index register value, for a queue of 2^k
entries: raw & (2^k - 1), as computed in SmmuV3SendCommand and
SmmuV3ConsumeEventQueueForErrors. -/
def qIdx (k raw : Nat) : Nat := raw &&& (2 ^ k - 1)

/-- Queue wrap bit of a raw index register value: raw & 2^k. -/
def qWrap (k raw : Nat) : Nat := raw &&& 2 ^ k

/-- The full test as applied to two raw index values in SmmuV3SendCommand. -/
def fullRaw (k p c : Nat) : Bool :=
  SMMUV3_IS_QUEUE_FULL (qIdx k p) (qWrap k p) (qIdx k c) (qWrap k c)

/-- The empty test as applied to two raw index values. -/
def emptyRaw (k p c : Nat) : Bool :=
  SMMUV3_IS_QUEUE_EMPTY (qIdx k p) (qWrap k p) (qIdx k c) (qWrap k c)

/-- One producer advance as published by SmmuV3SendCommand: the new raw value
is (ProducerIndex + 1) & (QueueMask | WrapMask), where ProducerIndex is the
masked index (without the wrap bit) read back from the register. -/
def advanceRaw (k raw : Nat) : Nat :=
  ((raw &&& (2 ^ k - 1)) + 1) &&& ((2 ^ k - 1) ||| 2 ^ k)

/-- One consumer advance as performed by SmmuV3ConsumeEventQueueForErrors:
increment the index; at the end of the queue reset it to 0 and flip the wrap
bit; the published raw value is index | wrap. -/
def consumeRaw (k raw : Nat) : Nat :=
  let i := (raw &&& (2 ^ k - 1)) + 1
  let w := raw &&& 2 ^ k
  if i = 2 ^ k then 0 ||| (w ^^^ 2 ^ k) else i ||| w

/-- The full-queue wait loop of SmmuV3SendCommand: while Count > 0 and the
queue is full, delay, re-read both registers, and decrement Count.  `regs t`
is the pair (CMDQ_PROD.WriteIndex, CMDQ_CONS.ReadIndex) returned by the t-th
register read round; the result is (final Count, last producer raw, last
consumer raw, next read round). -/
def pollWhileFull (k : Nat) (regs : Nat → Nat × Nat) :
    Nat → Nat → Nat → Nat → Nat × Nat × Nat × Nat
  | 0, p, c, t => (0, p, c, t)
  | n + 1, p, c, t =>
    if fullRaw k p c then
      let pc := regs t
      pollWhileFull k regs n pc.1 pc.2 (t + 1)
    else (n + 1, p, c, t)

/-- The consumed-wait loop of SmmuV3SendCommand: while Count > 0 and
Consumer.ReadIndex < Producer.WriteIndex, delay, re-read the consumer, and
decrement Count.  Returns (final Count, last consumer raw, next read round). -/
def pollConsumed (regs : Nat → Nat × Nat) (pw : Nat) :
    Nat → Nat → Nat → Nat × Nat × Nat
  | 0, c, t => (0, c, t)
  | n + 1, c, t =>
    if c < pw then pollConsumed regs pw n ((regs t).2) (t + 1)
    else (n + 1, c, t)

/-- SmmuV3SendCommand (SmmuV3Util.c) for a command queue of 2^k entries; the
hardware registers are modelled by the read oracle `regs` (round number →
(producer raw, consumer raw)).  Returns the status, the list of (slot,
command) stores into the command queue, and the list of producer raw values
published to SMMU_CMDQ_PROD. -/
def sendCommand (k : Nat) (regs : Nat → Nat × Nat) (cmd : Cmd) :
    Status × List (Nat × Cmd) × List Nat :=
  let qmask := 2 ^ k - 1
  let wmask := 2 ^ k
  let pc0 := regs 0
  let r := pollWhileFull k regs 10 pc0.1 pc0.2 1
  if r.1 = 0 && fullRaw k r.2.1 r.2.2.1 then (Status.timeout, [], [])
  else
    let producerIndex := r.2.1 &&& qmask
    let newProducer := (producerIndex + 1) &&& (qmask ||| wmask)
    let t := r.2.2.2
    let c0 := (regs t).2
    let r2 := pollConsumed regs newProducer 10 c0 (t + 1)
    if r2.1 = 0 && decide (r2.2.1 < newProducer) then
      (Status.timeout, [(producerIndex, cmd)], [newProducer])
    else (Status.success, [(producerIndex, cmd)], [newProducer])

/-! ### Stream table entry builder (SmmuDxe.c, SmmuV3Util.c) -/

/-- SMMU_ADDRESS_SIZE_TYPE (SmmuV3.h). -/
def SmmuAddressSize32Bit : Nat := 0
def SmmuAddressSize36Bit : Nat := 1
def SmmuAddressSize40Bit : Nat := 2
def SmmuAddressSize42Bit : Nat := 3
def SmmuAddressSize44Bit : Nat := 4
def SmmuAddressSize48Bit : Nat := 5
def SmmuAddressSize52Bit : Nat := 6

/-- SmmuV3DecodeAddressWidth (SmmuV3Util.c); the default branch ASSERTs and
returns 0. -/
def smmuV3DecodeAddressWidth (addressSizeType : Nat) : Nat :=
  if addressSizeType = SmmuAddressSize32Bit then 32
  else if addressSizeType = SmmuAddressSize36Bit then 36
  else if addressSizeType = SmmuAddressSize40Bit then 40
  else if addressSizeType = SmmuAddressSize42Bit then 42
  else if addressSizeType = SmmuAddressSize44Bit then 44
  else if addressSizeType = SmmuAddressSize48Bit then 48
  else if addressSizeType = SmmuAddressSize52Bit then 52
  else 0

/-- SmmuV3EncodeAddressWidth (SmmuV3Util.c); the default branch ASSERTs and
returns 0. -/
def smmuV3EncodeAddressWidth (addressWidth : Nat) : Nat :=
  if addressWidth = 32 then SmmuAddressSize32Bit
  else if addressWidth = 36 then SmmuAddressSize36Bit
  else if addressWidth = 40 then SmmuAddressSize40Bit
  else if addressWidth = 42 then SmmuAddressSize42Bit
  else if addressWidth = 44 then SmmuAddressSize44Bit
  else if addressWidth = 48 then SmmuAddressSize48Bit
  else if addressWidth = 52 then SmmuAddressSize52Bit
  else 0

/-- The fields of SMMUV3_STREAM_TABLE_ENTRY that SmmuV3BuildStreamTable
assigns (the struct itself is declared in SmmuV3Registers.h, which is not in
the sources; only the fields written by the builder are modelled, the bit
packing is irrelevant to the claims).  ZeroMem at the start of the builder
corresponds to the all-zero initial record. -/
structure STE where
  config : Nat := 0
  eats : Nat := 0
  s2vmid : Nat := 0
  s2tg : Nat := 0
  s2aa64 : Nat := 0
  s2ttb : Nat := 0
  s2ptw : Nat := 0
  s2sl0 : Nat := 0
  s2ps : Nat := 0
  s2t0sz : Nat := 0
  s2ir0 : Nat := 0
  s2or0 : Nat := 0
  s2sh0 : Nat := 0
  s2rs : Nat := 0
  shcfg : Nat := 0
  mtcfg : Nat := 0
  memattr : Nat := 0
  valid : Nat := 0
  deriving DecidableEq

/-- ARM64_RGNCACHEATTR / ARM64_SHATTR constants (SmmuV3.h). -/
def ARM64_RGNCACHEATTR_NONCACHEABLE : Nat := 0
def ARM64_RGNCACHEATTR_WRITEBACK_WRITEALLOCATE : Nat := 1
def ARM64_SHATTR_OUTER_SHAREABLE : Nat := 2
def ARM64_SHATTR_INNER_SHAREABLE : Nat := 3

/-- SmmuV3BuildStreamTable (SmmuDxe.c), as a function of the capability
register fields it reads (IDR0.S1P, IDR0.S2P, IDR1.AttrTypesOvr, IDR5.OAS),
the platform topology bits (IORT COHAC override flag, root-complex
CacheCoherent, CPM and DACS bits), and the page-table root address.  The
NULL-StreamEntry / zero-SmmuBase failure paths are modelled by the callers
passing valid arguments; this function is the successful construction. -/
def smmuV3BuildStreamTable (s1p s2p attrTypesOvr oas iortCohac cca cpm dacs pageTableRoot : Nat) : STE :=
  let ste0 : STE := {}
  let ste1 : STE :=
    { ste0 with
      config := 0x6
      eats := 0
      s2vmid := 1
      s2tg := 0
      s2aa64 := 1
      s2ttb := pageTableRoot >>> 4 }
  let ste2 := if s1p = 1 && s2p = 1 then { ste1 with s2ptw := 1 } else ste1
  let ste3 := { ste2 with s2sl0 := 2 }
  let outputAddressWidth := smmuV3DecodeAddressWidth oas
  let ste4 :=
    if outputAddressWidth < 48 then { ste3 with s2ps := smmuV3EncodeAddressWidth outputAddressWidth }
    else { ste3 with s2ps := smmuV3EncodeAddressWidth 48 }
  let inputSize := outputAddressWidth
  let ste5 := { ste4 with s2t0sz := 64 - inputSize }
  let ste6 :=
    if iortCohac ≠ 0 then
      { ste5 with
        s2ir0 := ARM64_RGNCACHEATTR_WRITEBACK_WRITEALLOCATE
        s2or0 := ARM64_RGNCACHEATTR_WRITEBACK_WRITEALLOCATE
        s2sh0 := ARM64_SHATTR_INNER_SHAREABLE }
    else
      { ste5 with
        s2ir0 := ARM64_RGNCACHEATTR_NONCACHEABLE
        s2or0 := ARM64_RGNCACHEATTR_NONCACHEABLE
        s2sh0 := ARM64_SHATTR_OUTER_SHAREABLE }
  let ste7 := { ste6 with s2rs := 0x2 }
  let ste8 := if attrTypesOvr ≠ 0 then { ste7 with shcfg := 0x1 } else ste7
  let ste9 :=
    if attrTypesOvr ≠ 0 && (cca = 1 && cpm = 1 && dacs = 0) then
      { ste8 with mtcfg := 0x1, memattr := 0xF, shcfg := 0x3 }
    else ste8
  { ste9 with valid := 1 }

/-! ### Page-table walks -/

/-- The node address visited at level k by a walk for va from the root (the
claims' "walk from the root to the leaf"): node 0 is the root, node k+1 is
the child address stored at index IDX va k of node k. -/
def nodeSeq (m : Mem) (root va : Nat) : Nat → Nat
  | 0 => root
  | k + 1 => childAddr (m (nodeSeq m root va k) (IDX va k))

/-- The entry read at level k of the walk for va. -/
def pathEnt (m : Mem) (root va k : Nat) : Nat :=
  m (nodeSeq m root va k) (IDX va k)

/-- An intermediate entry holds a usable (nonzero) child pointer. -/
def entOk (e : Nat) : Prop := 4096 ≤ childAddr e

instance (e : Nat) : Decidable (entOk e) := by
  unfold entOk; infer_instance

/-- The leaf entry found by the walk for va (meaningful when the three
intermediate links exist). -/
def walkLeaf (m : Mem) (root va : Nat) : Nat := pathEnt m root va 3

/-- Number of consecutive usable intermediate links of the walk for va,
counting from the root (at most 3). -/
def stopLen (m : Mem) (root va : Nat) : Nat :=
  if entOk (pathEnt m root va 0) then
    if entOk (pathEnt m root va 1) then
      if entOk (pathEnt m root va 2) then 3 else 2
    else 1
  else 0

/-- The value UpdateMapping leaves in an intermediate entry on the map path
(valid = TRUE): the old entry with the valid bit and the flags OR-ed in. -/
def orVF (flags e : Nat) : Nat := (e ||| PAGE_TABLE_ENTRY_VALID_BIT) ||| flags

/-- The value UpdateMapping leaves in the leaf entry on the map path: the
masked output address with the valid bit and the flags OR-ed in. -/
def mapLeafVal (pa flags : Nat) : Nat :=
  ((pa &&& NOT_BLOCK_OFFSET) ||| PAGE_TABLE_ENTRY_VALID_BIT) ||| flags

/-- The memory effect of one map-path level step on a nonzero entry. -/
def mapStepMem (flags : Nat) (m : Mem) (a i : Nat) : Mem :=
  writeEnt m a i (orVF flags (m a i))

/-- Whether (n, i) is the leaf slot of the walk for some page in ps. -/
def isLeafSlotB (m : Mem) (root : Nat) (ps : List Nat) (n i : Nat) : Bool :=
  ps.any (fun p => n == nodeSeq m root p 3 && i == IDX p 3)

/-- The all-zero memory (every node reads as empty). -/
def memZero : Mem := fun _ _ => 0

/-- A fresh page-table state: zeroed memory and three fresh aligned pages
available from the allocator. -/
def stateZ3 : PTState :=
  { mem := memZero, alloc := [0x10000, 0x20000, 0x30000] }

/-- A handcrafted page table with a single mapped leaf: the walk for
va = 0x1000 from root 0x10000 passes 0x20000 and 0x30000 and finds leaf
entry 0x1041 (valid, readable, output address 0x1000) at index 1 of node
0x40000. -/
def c8mem : Mem :=
  writeEnt
    (writeEnt
      (writeEnt
        (writeEnt memZero 0x10000 0 0x20003)
        0x20000 0 0x30003)
      0x30000 0 0x40003)
    0x40000 1 0x1041

/-! ### Helper lemmas -/

theorem writeEnt_get_same (m : Mem) (a i v : Nat) : writeEnt m a i v a i = v := by
  simp [writeEnt]

theorem writeEnt_get_other (m : Mem) (a i v w j : Nat) (h : ¬(w = a ∧ j = i)) :
    writeEnt m a i v w j = m w j := by
  unfold writeEnt
  by_cases hw : w = a
  · by_cases hj : j = i
    · exact absurd ⟨hw, hj⟩ h
    · simp [hw, hj]
  · simp [hw]

theorem writeEnt_collapse (m : Mem) (a i v w : Nat) :
    writeEnt (writeEnt m a i v) a i w = writeEnt m a i w := by
  funext x j
  unfold writeEnt
  by_cases hx : x = a <;> by_cases hj : j = i <;> simp [hx, hj]

theorem writeEnt_noop (m : Mem) (a i v : Nat) (h : m a i = v) : writeEnt m a i v = m := by
  funext x j
  unfold writeEnt
  by_cases hx : x = a <;> by_cases hj : j = i <;> simp [hx, hj, h.symm]

theorem lor_two_pow_sub_one (k : Nat) : (2 ^ k - 1) ||| 2 ^ k = 2 ^ (k + 1) - 1 := by
  apply Nat.eq_of_testBit_eq
  intro i
  rw [Nat.testBit_or, Nat.testBit_two_pow_sub_one, Nat.testBit_two_pow_sub_one,
    Nat.testBit_two_pow]
  rcases Nat.lt_trichotomy i k with h | h | h
  · simp [h, Nat.lt_succ_of_lt h, Nat.ne_of_gt h]
  · simp [h, Nat.lt_irrefl]
  · simp [Nat.not_lt_of_gt h, Nat.ne_of_lt h, Nat.not_lt.mpr (Nat.succ_le_of_lt h)]

theorem advanceRaw_of_lt (k j : Nat) (h : j < 2 ^ k) : advanceRaw k j = j + 1 := by
  unfold advanceRaw
  rw [Nat.and_pow_two_sub_one_eq_mod, Nat.mod_eq_of_lt h, lor_two_pow_sub_one,
    Nat.and_pow_two_sub_one_eq_mod, Nat.mod_eq_of_lt]
  calc j + 1 ≤ 2 ^ k := h
    _ < 2 ^ (k + 1) := by
        have := Nat.two_pow_pos k
        calc 2 ^ k < 2 ^ k + 2 ^ k := by omega
          _ = 2 ^ (k + 1) := by rw [Nat.pow_succ]; omega

theorem advanceRaw_iter (k : Nat) : ∀ j, j ≤ 2 ^ k → (advanceRaw k)^[j] 0 = j := by
  intro j
  induction j with
  | zero => intro _; rfl
  | succ n ih =>
    intro h
    rw [Function.iterate_succ_apply', ih (Nat.le_of_succ_le h),
      advanceRaw_of_lt k n (Nat.lt_of_succ_le h)]

theorem consumeRaw_zero (k : Nat) : consumeRaw k 0 = 1 := by
  by_cases h : (1 : Nat) = 2 ^ k
  · simp [consumeRaw, ← h]
  · simp [consumeRaw, h]

/-! ### C6: queue full/empty predicates -/

/-- C6: for a queue of 2^k entries with the wrap-bit index encoding, empty
holds exactly when the index bits are equal and the wrap bits are equal, full
exactly when the index bits are equal and the wrap bits differ; a freshly
initialized queue (producer = consumer = 0) is empty, after j < 2^k producer
advances (as published by SmmuV3SendCommand) it is not full, after exactly
2^k advances it is full, and after one consumer advance (as published by
SmmuV3ConsumeEventQueueForErrors) it is no longer full. -/
theorem c6_queue_predicates (k : Nat) :
    (∀ p c, emptyRaw k p c = true ↔ (qIdx k p = qIdx k c ∧ qWrap k p = qWrap k c)) ∧
    (∀ p c, fullRaw k p c = true ↔ (qIdx k p = qIdx k c ∧ qWrap k p ≠ qWrap k c)) ∧
    emptyRaw k 0 0 = true ∧
    (∀ j, j < 2 ^ k → fullRaw k ((advanceRaw k)^[j] 0) 0 = false) ∧
    fullRaw k ((advanceRaw k)^[2 ^ k] 0) 0 = true ∧
    fullRaw k ((advanceRaw k)^[2 ^ k] 0) (consumeRaw k 0) = false := by
  refine ⟨?_, ?_, ?_, ?_, ?_, ?_⟩
  · intro p c
    simp [emptyRaw, SMMUV3_IS_QUEUE_EMPTY]
  · intro p c
    simp [fullRaw, SMMUV3_IS_QUEUE_FULL, Bool.and_eq_true, bne_iff_ne]
  · simp [emptyRaw, SMMUV3_IS_QUEUE_EMPTY]
  · intro j hj
    rw [advanceRaw_iter k j (Nat.le_of_lt hj)]
    by_cases h0 : j = 0
    · subst h0
      simp [fullRaw, SMMUV3_IS_QUEUE_FULL, qIdx, qWrap]
    · have hidx : qIdx k j = j := by
        unfold qIdx
        rw [Nat.and_pow_two_sub_one_eq_mod, Nat.mod_eq_of_lt hj]
      have : qIdx k 0 = 0 := by simp [qIdx]
      simp [fullRaw, SMMUV3_IS_QUEUE_FULL, hidx, this, h0]
  · rw [advanceRaw_iter k (2 ^ k) (Nat.le_refl _)]
    have hidx : qIdx k (2 ^ k) = 0 := by
      unfold qIdx
      rw [Nat.and_pow_two_sub_one_eq_mod, Nat.mod_self]
    have hwrap : qWrap k (2 ^ k) = 2 ^ k := by simp [qWrap]
    have hpos := Nat.two_pow_pos k
    simp [fullRaw, SMMUV3_IS_QUEUE_FULL, hidx, hwrap, qIdx, qWrap, bne_iff_ne]
  · rw [advanceRaw_iter k (2 ^ k) (Nat.le_refl _), consumeRaw_zero]
    match k with
    | 0 => decide
    | k + 1 =>
      have h1 : qIdx (k + 1) 1 = 1 := by
        unfold qIdx
        rw [Nat.and_pow_two_sub_one_eq_mod, Nat.mod_eq_of_lt]
        exact Nat.one_lt_two_pow_iff.mpr (Nat.succ_ne_zero k)
      have h2 : qIdx (k + 1) (2 ^ (k + 1)) = 0 := by
        unfold qIdx
        rw [Nat.and_pow_two_sub_one_eq_mod, Nat.mod_self]
      simp [fullRaw, SMMUV3_IS_QUEUE_FULL, h1, h2]

/-- C6 witness at k = 1, j = 1. -/
theorem c6_witness :
    emptyRaw 1 0 0 = true ∧
    (1 < 2 ^ 1 ∧ fullRaw 1 ((advanceRaw 1)^[1] 0) 0 = false) ∧
    fullRaw 1 ((advanceRaw 1)^[2 ^ 1] 0) 0 = true ∧
    fullRaw 1 ((advanceRaw 1)^[2 ^ 1] 0) (consumeRaw 1 0) = false :=
  ⟨(c6_queue_predicates 1).2.2.1,
   ⟨by decide, (c6_queue_predicates 1).2.2.2.1 1 (by decide)⟩,
   (c6_queue_predicates 1).2.2.2.2.1,
   (c6_queue_predicates 1).2.2.2.2.2⟩

/-! ### C5: SendCommand timeout on a stuck full queue -/

theorem pollWhileFull_const (k : Nat) (regs : Nat → Nat × Nat) (p c : Nat)
    (hregs : ∀ i, regs i = (p, c)) (hfull : fullRaw k p c = true) :
    ∀ n t, pollWhileFull k regs n p c t = (0, p, c, t + n) := by
  intro n
  induction n with
  | zero => intro t; simp [pollWhileFull]
  | succ n ih =>
    intro t
    unfold pollWhileFull
    rw [hfull]
    simp only [if_true, hregs t, ih (t + 1)]
    have : t + 1 + n = t + (n + 1) := by omega
    rw [this]

/-- C5: if the command queue is full and the hardware consumer index never
advances (every register read returns the same producer/consumer pair, with
the full predicate holding), SmmuV3SendCommand returns EFI_TIMEOUT after its
fixed 10-round poll budget, without storing the command into the queue and
without publishing a new producer index. -/
theorem c5_send_command_timeout (k : Nat) (regs : Nat → Nat × Nat) (p c : Nat) (cmd : Cmd)
    (hregs : ∀ i, regs i = (p, c)) (hfull : fullRaw k p c = true) :
    sendCommand k regs cmd = (Status.timeout, [], []) := by
  unfold sendCommand
  rw [hregs 0]
  simp only [pollWhileFull_const k regs p c hregs hfull 10 1, hfull]
  simp

/-- C5 witness: a 2^8-entry queue with producer raw 256 (wrap set, index 0)
and consumer raw 0, never advancing. -/
theorem c5_witness :
    fullRaw 8 256 0 = true ∧
    sendCommand 8 (fun _ => (256, 0)) Cmd.syncNoInterrupt = (Status.timeout, [], []) :=
  ⟨by decide,
   c5_send_command_timeout 8 (fun _ => (256, 0)) 256 0 Cmd.syncNoInterrupt
     (fun _ => rfl) (by decide)⟩

/-! ### C10: null-mapping handling of SetAttribute and Unmap -/

/-- C10: IoMmuSetAttribute with a NULL Mapping returns EFI_SUCCESS and leaves
the page-table state completely unchanged, while IoMmuUnmap with a NULL
Mapping returns EFI_INVALID_PARAMETER (unchanged state, no commands). -/
theorem c10_null_mapping (s : PTState) (root access : Nat) :
    ioMmuSetAttribute s root none access = (Status.success, s) ∧
    ioMmuUnmap s root none = (Status.invalidParameter, s, []) :=
  ⟨rfl, rfl⟩

/-! ### C2: the 48-bit address-width cap -/

/-- C2: at SMMU_IDR5.OAS = 6 (decoded width 52) the builder caps the output
encoding S2Ps at the 48-bit encoding, but computes S2T0Sz = 64 - 52 = 12 from
the uncapped width instead of 64 - 48 = 16: the input width is not capped at
48 bits, contradicting the code's own comment ("the maximum input address
width is restricted to 48-bits even if it is advertised to be larger"). -/
theorem c2_oas52_input_width_uncapped :
    smmuV3DecodeAddressWidth SmmuAddressSize52Bit = 52 ∧
    (smmuV3BuildStreamTable 1 1 0 SmmuAddressSize52Bit 0 1 1 0 0x40000).s2ps =
      smmuV3EncodeAddressWidth 48 ∧
    (smmuV3BuildStreamTable 1 1 0 SmmuAddressSize52Bit 0 1 1 0 0x40000).s2t0sz = 12 ∧
    (smmuV3BuildStreamTable 1 1 0 SmmuAddressSize52Bit 0 1 1 0 0x40000).s2t0sz ≠ 64 - 48 := by
  refine ⟨by decide, by decide, by decide, by decide⟩

/-! ### C7: flags-only updates -/

/-- C7 (amended): a flags-only UpdateFlags with zero flags clears exactly the
read/write bit pair (the cleared bits OR-ed back reconstruct the original
entry) and leaves the valid bit and the output-address field unchanged; a
flags-only update whose flags value has bit 0 clear never alters the valid
bit; and every flags value produced by IoMmuSetAttribute
(IoMmuAccess << 6, truncated to 64 bits) has bit 0 clear. -/
theorem c7_flags_only_update (e : Nat) (he : e < 2 ^ 64) :
    updateFlags e true 0 &&& (PAGE_TABLE_READ_BIT ||| PAGE_TABLE_WRITE_BIT) = 0 ∧
    updateFlags e true 0 &&& PAGE_TABLE_ENTRY_VALID_BIT = e &&& PAGE_TABLE_ENTRY_VALID_BIT ∧
    childAddr (updateFlags e true 0) = childAddr e ∧
    updateFlags e true 0 ||| (e &&& (PAGE_TABLE_READ_BIT ||| PAGE_TABLE_WRITE_BIT)) = e ∧
    (∀ b, b &&& PAGE_TABLE_ENTRY_VALID_BIT = 0 →
      updateFlags e true b &&& PAGE_TABLE_ENTRY_VALID_BIT = e &&& PAGE_TABLE_ENTRY_VALID_BIT) ∧
    (∀ access, ((access <<< 6) % 2 ^ 64) &&& PAGE_TABLE_ENTRY_VALID_BIT = 0) := by
  have hz : updateFlags e true 0 = e &&& NOT_RW := by simp [updateFlags]
  refine ⟨?_, ?_, ?_, ?_, ?_, ?_⟩
  · rw [hz, Nat.and_assoc]
    have : NOT_RW &&& (PAGE_TABLE_READ_BIT ||| PAGE_TABLE_WRITE_BIT) = 0 := by decide
    rw [this, Nat.and_zero]
  · rw [hz, Nat.and_assoc]
    have : NOT_RW &&& PAGE_TABLE_ENTRY_VALID_BIT = PAGE_TABLE_ENTRY_VALID_BIT := by decide
    rw [this]
  · rw [hz]
    unfold childAddr
    rw [Nat.and_assoc]
    have : NOT_RW &&& NOT_BLOCK_OFFSET = NOT_BLOCK_OFFSET := by decide
    rw [this]
  · rw [hz, ← Nat.and_or_distrib_left]
    have : NOT_RW ||| (PAGE_TABLE_READ_BIT ||| PAGE_TABLE_WRITE_BIT) = 2 ^ 64 - 1 := by decide
    rw [this, Nat.and_pow_two_sub_one_eq_mod, Nat.mod_eq_of_lt he]
  · intro b hb
    by_cases hb0 : b = 0
    · subst hb0
      rw [show updateFlags e true 0 = e &&& NOT_RW from by simp [updateFlags], Nat.and_assoc]
      have : NOT_RW &&& PAGE_TABLE_ENTRY_VALID_BIT = PAGE_TABLE_ENTRY_VALID_BIT := by decide
      rw [this]
    · have : updateFlags e true b = e ||| b := by simp [updateFlags, hb0]
      rw [this, Nat.and_comm, Nat.and_or_distrib_left, Nat.and_comm _ e,
        Nat.and_comm PAGE_TABLE_ENTRY_VALID_BIT b, hb, Nat.or_zero]
  · intro access
    unfold PAGE_TABLE_ENTRY_VALID_BIT
    have h1 : (1 : Nat) = 2 ^ 1 - 1 := by decide
    rw [h1, Nat.and_pow_two_sub_one_eq_mod]
    have h2 : ((access <<< 6) % 2 ^ 64) % 2 ^ 1 = (access <<< 6) % 2 ^ 1 := by
      exact Nat.mod_mod_of_dvd _ (by norm_num)
    rw [h2, Nat.shiftLeft_eq]
    have : access * 2 ^ 6 = (access * 2 ^ 5) * 2 := by ring
    rw [this]
    simp [Nat.mul_mod_left]

/-- C7 witness at entry 0x14C3 (valid, read/write set, access flag set,
output address 0x1000) and flags 0xC0. -/
theorem c7_witness :
    (0x14C3 : Nat) < 2 ^ 64 ∧
    updateFlags 0x14C3 true 0 &&& (PAGE_TABLE_READ_BIT ||| PAGE_TABLE_WRITE_BIT) = 0 ∧
    updateFlags 0x14C3 true 0 ||| (0x14C3 &&& (PAGE_TABLE_READ_BIT ||| PAGE_TABLE_WRITE_BIT)) = 0x14C3 ∧
    (0xC0 : Nat) &&& PAGE_TABLE_ENTRY_VALID_BIT = 0 ∧
    updateFlags 0x14C3 true 0xC0 &&& PAGE_TABLE_ENTRY_VALID_BIT = 0x14C3 &&& PAGE_TABLE_ENTRY_VALID_BIT :=
  ⟨by decide,
   (c7_flags_only_update 0x14C3 (by decide)).1,
   (c7_flags_only_update 0x14C3 (by decide)).2.2.2.1,
   by decide,
   (c7_flags_only_update 0x14C3 (by decide)).2.2.2.2.1 0xC0 (by decide)⟩

/-- C7 counterexample: the flags-only update with flags value 1 sets the
valid bit of a clear entry, so "for every flags-only update with any flags
value, the valid bit is never altered" fails as stated. -/
theorem c7_counterexample :
    updateFlags 0 true 1 &&& PAGE_TABLE_ENTRY_VALID_BIT ≠
      (0 : Nat) &&& PAGE_TABLE_ENTRY_VALID_BIT := by decide

/-! ### C1: the commands issued by IoMmuUnmap -/

/-- C1 (amended): whenever IoMmuUnmap on a non-null mapping returns
EFI_SUCCESS, the commands it submitted to SmmuV3SendCommand are exactly two
TLB invalidations (TLBI_NSNH_ALL then TLBI_EL2_ALL) followed by one CMD_SYNC,
in that order; no configuration-cache invalidation is issued. -/
theorem c1_unmap_commands (s : PTState) (root : Nat) (mi : MapInfo)
    (h : (ioMmuUnmap s root (some mi)).1 = Status.success) :
    (ioMmuUnmap s root (some mi)).2.2 =
      [Cmd.tlbiNsnhAll, Cmd.tlbiEl2All, Cmd.syncNoInterrupt] ∧
    Cmd.cfgiAll ∉ (ioMmuUnmap s root (some mi)).2.2 := by
  have hun : ioMmuUnmap s root (some mi) =
      (if isError (updatePageTable s root mi.pa mi.numberOfBytes 0 false false).1 then
        ((updatePageTable s root mi.pa mi.numberOfBytes 0 false false).1,
         (updatePageTable s root mi.pa mi.numberOfBytes 0 false false).2, [])
       else (Status.success, (updatePageTable s root mi.pa mi.numberOfBytes 0 false false).2,
         [Cmd.tlbiNsnhAll, Cmd.tlbiEl2All, Cmd.syncNoInterrupt])) := rfl
  rw [hun] at h ⊢
  by_cases he : isError (updatePageTable s root mi.pa mi.numberOfBytes 0 false false).1 = true
  · rw [if_pos he] at h
    rw [h] at he
    exact absurd he (by decide)
  · rw [if_neg he] at h ⊢
    refine ⟨rfl, ?_⟩
    show Cmd.cfgiAll ∉ [Cmd.tlbiNsnhAll, Cmd.tlbiEl2All, Cmd.syncNoInterrupt]
    decide

/-- C1 witness: a concrete Map of [0x1000, 0x3000) followed by an Unmap of
the returned handle. -/
theorem c1_witness :
    (ioMmuMap stateZ3 0x5000 0x1000 0x2000).1 = Status.success ∧
    (ioMmuMap stateZ3 0x5000 0x1000 0x2000).2.2 =
      some { numberOfBytes := 0x2000, va := 0x1000, pa := 0x1000 } ∧
    (ioMmuUnmap (ioMmuMap stateZ3 0x5000 0x1000 0x2000).2.1 0x5000
        (some { numberOfBytes := 0x2000, va := 0x1000, pa := 0x1000 })).1 = Status.success ∧
    (ioMmuUnmap (ioMmuMap stateZ3 0x5000 0x1000 0x2000).2.1 0x5000
        (some { numberOfBytes := 0x2000, va := 0x1000, pa := 0x1000 })).2.2 =
      [Cmd.tlbiNsnhAll, Cmd.tlbiEl2All, Cmd.syncNoInterrupt] :=
  ⟨by decide, by decide, by decide,
   (c1_unmap_commands (ioMmuMap stateZ3 0x5000 0x1000 0x2000).2.1 0x5000
     { numberOfBytes := 0x2000, va := 0x1000, pa := 0x1000 } (by decide)).1⟩

/-- C1 counterexample: in the concrete successful Map-then-Unmap run, the
command sequence issued by IoMmuUnmap is the three-command batch
[TLBI_NSNH_ALL, TLBI_EL2_ALL, CMD_SYNC]; it contains no
invalidate-configuration-cache command and is not a four-command batch, so
the claimed "one invalidate-config, then two TLB invalidations, then one
sync" sequence is not what IoMmuUnmap issues. -/
theorem c1_counterexample :
    (ioMmuUnmap (ioMmuMap stateZ3 0x5000 0x1000 0x2000).2.1 0x5000
        (ioMmuMap stateZ3 0x5000 0x1000 0x2000).2.2).1 = Status.success ∧
    (ioMmuUnmap (ioMmuMap stateZ3 0x5000 0x1000 0x2000).2.1 0x5000
        (ioMmuMap stateZ3 0x5000 0x1000 0x2000).2.2).2.2 =
      [Cmd.tlbiNsnhAll, Cmd.tlbiEl2All, Cmd.syncNoInterrupt] ∧
    Cmd.cfgiAll ∉
      (ioMmuUnmap (ioMmuMap stateZ3 0x5000 0x1000 0x2000).2.1 0x5000
        (ioMmuMap stateZ3 0x5000 0x1000 0x2000).2.2).2.2 ∧
    ((ioMmuUnmap (ioMmuMap stateZ3 0x5000 0x1000 0x2000).2.1 0x5000
        (ioMmuMap stateZ3 0x5000 0x1000 0x2000).2.2).2.2).length ≠ 4 := by
  refine ⟨by decide, by decide, by decide, by decide⟩

/-! ### C3 counterexample -/

/-- C8 counterexample: mapping (valid = TRUE) a page whose leaf entry is
already valid returns EFI_SUCCESS and logs the condition, but the leaf entry
is not left as it was: the old entry 0x1041 (valid, read bit set) is
overwritten with 0x1403 (the reassigned output address, valid bit and the
map-time flags), dropping the read bit. -/
theorem c8_counterexample :
    (updateMapping { mem := c8mem, alloc := [] } 0x10000 0x1000 0x1000
        (PAGE_TABLE_ACCESS_FLAG ||| PAGE_TABLE_DESCRIPTOR) true false).1 = Status.success ∧
    (updateMapping { mem := c8mem, alloc := [] } 0x10000 0x1000 0x1000
        (PAGE_TABLE_ACCESS_FLAG ||| PAGE_TABLE_DESCRIPTOR) true false).2.2 = true ∧
    c8mem 0x40000 1 &&& PAGE_TABLE_ENTRY_VALID_BIT ≠ 0 ∧
    (updateMapping { mem := c8mem, alloc := [] } 0x10000 0x1000 0x1000
        (PAGE_TABLE_ACCESS_FLAG ||| PAGE_TABLE_DESCRIPTOR) true false).2.1.mem 0x40000 1 ≠
      c8mem 0x40000 1 := by
  refine ⟨by decide, by decide, by decide, by decide⟩

/-! ### C9: partial failure of a range update -/

theorem runPages_cons (root flags : Nat) (v sfo : Bool) (p : Nat) (rest : List Nat)
    (s : PTState) :
    runPages root flags v sfo (p :: rest) s =
      (if isError (updateMapping s root p p flags v sfo).1 then
        ((updateMapping s root p p flags v sfo).1, (updateMapping s root p p flags v sfo).2.1)
       else if rest.isEmpty then
        ((updateMapping s root p p flags v sfo).1, (updateMapping s root p p flags v sfo).2.1)
       else runPages root flags v sfo rest (updateMapping s root p p flags v sfo).2.1) := by
  rw [runPages]

theorem runPages_append (root flags : Nat) (v sfo : Bool) (xs : List Nat) :
    ∀ (ys : List Nat) (s : PTState), ys ≠ [] →
      isError (runPages root flags v sfo xs s).1 = false →
      runPages root flags v sfo (xs ++ ys) s =
        runPages root flags v sfo ys (runPages root flags v sfo xs s).2 := by
  induction xs with
  | nil => intro ys s _ _; rfl
  | cons p rest ih =>
    intro ys s hys hok
    by_cases he : isError (updateMapping s root p p flags v sfo).1 = true
    · exfalso
      rw [runPages_cons, if_pos he, he] at hok
      exact absurd hok (by decide)
    · have hys2 : ((rest ++ ys).isEmpty) = false := by
        cases rest with
        | nil =>
          cases ys with
          | nil => exact absurd rfl hys
          | cons y ys => rfl
        | cons q qs => rfl
      rw [List.cons_append, runPages_cons, if_neg he, hys2]
      simp only [Bool.false_eq_true, if_false]
      cases rest with
      | nil =>
        rw [List.nil_append, runPages_cons, if_neg he]
        simp only [List.isEmpty_nil, if_true]
      | cons q qs =>
        have hok2 : isError (runPages root flags v sfo (q :: qs)
            (updateMapping s root p p flags v sfo).2.1).1 = false := by
          rw [runPages_cons, if_neg he] at hok
          simpa using hok
        rw [ih ys (updateMapping s root p p flags v sfo).2.1 hys hok2,
          runPages_cons root flags v sfo p (q :: qs) s, if_neg he]
        simp only [List.isEmpty_cons, Bool.false_eq_true, if_false]

/-- C9: if its page loop reaches a page p at which UpdateMapping fails with
EFI_OUT_OF_RESOURCES, UpdatePageTable returns EFI_OUT_OF_RESOURCES
immediately, with the final state exactly the state left by the failing
UpdateMapping call: the pages processed before p keep all their mutations (no
rollback) and the pages after p are never visited. -/
theorem c9_partial_failure (s0 : PTState) (root addr bytes flags : Nat) (v sfo : Bool)
    (ps1 ps2 : List Nat) (p : Nat)
    (hsplit : pageList addr bytes = ps1 ++ p :: ps2)
    (hpre : isError (runPages root flags v sfo ps1 s0).1 = false)
    (hfail : (updateMapping (runPages root flags v sfo ps1 s0).2 root p p flags v sfo).1 =
      Status.outOfResources) :
    updatePageTable s0 root addr bytes flags v sfo =
      (Status.outOfResources,
       (updateMapping (runPages root flags v sfo ps1 s0).2 root p p flags v sfo).2.1) := by
  unfold updatePageTable
  rw [hsplit, runPages_append root flags v sfo ps1 (p :: ps2) s0 (List.cons_ne_nil p ps2) hpre,
    runPages_cons, hfail]
  simp [isError]

/-! ### Bitwise facts about entries -/

theorem testBit_NBO (i : Nat) :
    NOT_BLOCK_OFFSET.testBit i = (decide (12 ≤ i) && decide (i < 64)) := by
  have h : NOT_BLOCK_OFFSET = (2 ^ 52 - 1) <<< 12 := by decide
  rw [h, Nat.testBit_shiftLeft, Nat.testBit_two_pow_sub_one]
  by_cases h12 : 12 ≤ i
  · have : (i ≥ 12) = (12 ≤ i) := rfl
    simp only [this, decide_eq_true h12, Bool.true_and]
    have : i - 12 < 52 ↔ i < 64 := by omega
    simp [this]
  · have : ¬(i ≥ 12) := h12
    simp [this, h12]

theorem testBit_of_lt {x i : Nat} (h : x < 2 ^ i) : x.testBit i = false :=
  Nat.testBit_lt_two_pow h

theorem testBit_small {x i j : Nat} (hx : x < 2 ^ i) (hij : i ≤ j) : x.testBit j = false :=
  Nat.testBit_lt_two_pow (Nat.lt_of_lt_of_le hx (Nat.pow_le_pow_right (by omega) hij))

theorem childAddr_lor_small (e f : Nat) (hf : f < 4096) :
    childAddr (e ||| f) = childAddr e := by
  unfold childAddr
  apply Nat.eq_of_testBit_eq
  intro i
  rw [Nat.testBit_and, Nat.testBit_and, Nat.testBit_or, testBit_NBO]
  by_cases h12 : 12 ≤ i
  · have hf12 : f.testBit i = false := testBit_small (show f < 2 ^ 12 from hf) h12
    simp [hf12]
  · simp [h12]

theorem childAddr_land (e m : Nat) (h : m &&& NOT_BLOCK_OFFSET = NOT_BLOCK_OFFSET) :
    childAddr (e &&& m) = childAddr e := by
  unfold childAddr
  rw [Nat.and_assoc, h]

theorem childAddr_NV (e : Nat) : childAddr (e &&& NOT_VALID) = childAddr e :=
  childAddr_land e NOT_VALID (by decide)

theorem childAddr_le (e : Nat) : childAddr e ≤ e := Nat.and_le_left

theorem entOk_ne_zero {e : Nat} (h : entOk e) : e ≠ 0 := by
  unfold entOk at h
  have := Nat.le_trans h (childAddr_le e)
  omega

theorem entOk_child_ne_zero {e : Nat} (h : entOk e) : childAddr e ≠ 0 := by
  unfold entOk at h
  omega

theorem entOk_lor_small {e : Nat} (f : Nat) (hf : f < 4096) : entOk (e ||| f) ↔ entOk e := by
  unfold entOk
  rw [childAddr_lor_small e f hf]

theorem entOk_NV {e : Nat} : entOk (e &&& NOT_VALID) ↔ entOk e := by
  unfold entOk
  rw [childAddr_NV]

theorem aligned_childAddr (a : Nat) (ha : a % 4096 = 0) (h64 : a < 2 ^ 64) :
    childAddr a = a := by
  unfold childAddr
  apply Nat.eq_of_testBit_eq
  intro i
  rw [Nat.testBit_and, testBit_NBO]
  by_cases h12 : 12 ≤ i
  · by_cases h64i : i < 64
    · simp [h12, h64i]
    · have : a.testBit i = false := testBit_small h64 (by omega)
      simp [this]
  · have hlow : a.testBit i = false := by
      have hmod : (a % 2 ^ 12).testBit i = (decide (i < 12) && a.testBit i) :=
        Nat.testBit_mod_two_pow a 12 i
      rw [show a % 2 ^ 12 = 0 from ha] at hmod
      rw [Nat.zero_testBit] at hmod
      have hi12 : i < 12 := by omega
      simpa [hi12] using hmod.symm
    simp [hlow]

theorem lor_absorb (a x : Nat) : (a ||| x) ||| x = a ||| x := by
  rw [Nat.or_assoc, Nat.or_self]

theorem valid_bit_of_lor_one (x f : Nat) :
    ((x ||| PAGE_TABLE_ENTRY_VALID_BIT) ||| f) &&& PAGE_TABLE_ENTRY_VALID_BIT =
      PAGE_TABLE_ENTRY_VALID_BIT := by
  have h : ∀ y : Nat, (y ||| 1) &&& 1 = 1 := by
    intro y
    have h1 : ((y ||| 1) &&& 1) = ((y &&& 1) ||| (1 &&& 1)) := by
      rw [Nat.and_comm, Nat.and_or_distrib_left, Nat.and_comm 1 y, Nat.and_self]
    rcases Nat.mod_two_eq_zero_or_one y with hy | hy <;>
      · have hy1 : y &&& 1 = y % 2 := Nat.and_pow_two_sub_one_eq_mod y 1
        rw [h1, hy1, hy]
        decide
  show ((x ||| 1) ||| f) &&& 1 = 1
  rw [Nat.or_assoc, Nat.or_comm 1 f, ← Nat.or_assoc]
  exact h (x ||| f)

theorem valid_bit_cleared (e : Nat) :
    (e &&& NOT_VALID) &&& PAGE_TABLE_ENTRY_VALID_BIT = 0 := by
  rw [Nat.and_assoc]
  have : NOT_VALID &&& PAGE_TABLE_ENTRY_VALID_BIT = 0 := by decide
  rw [this, Nat.and_zero]

theorem NV_idem (e : Nat) : (e &&& NOT_VALID) &&& NOT_VALID = e &&& NOT_VALID := by
  rw [Nat.and_assoc, Nat.and_self]

theorem or_small_lt (x y k : Nat) (hx : x < 2 ^ k) (hy : y < 2 ^ k) : x ||| y < 2 ^ k :=
  Nat.or_lt_two_pow hx hy

/-! ### Specification lemmas for levelStep and leafStep -/

/-- levelStep on a nonzero entry: no allocation, the entry becomes
updateFlags of (entry, possibly with the valid bit OR-ed in), and the walk
moves to the child address of the new entry. -/
theorem levelStep_or (v sfo : Bool) (va flags lvl : Nat) (s : PTState) (cur : Nat)
    (hcur : cur ≠ 0) (he : s.mem cur (IDX va lvl) ≠ 0) :
    levelStep v sfo va flags lvl s cur =
      (Status.success,
       { mem := writeEnt s.mem cur (IDX va lvl)
           (updateFlags (if !sfo && v then s.mem cur (IDX va lvl) ||| PAGE_TABLE_ENTRY_VALID_BIT
             else s.mem cur (IDX va lvl)) sfo flags),
         alloc := s.alloc },
       childAddr (updateFlags (if !sfo && v then s.mem cur (IDX va lvl) |||
           PAGE_TABLE_ENTRY_VALID_BIT else s.mem cur (IDX va lvl)) sfo flags)) := by
  unfold levelStep
  rw [if_neg he]
  by_cases hb : (!sfo && v) = true
  · rw [if_pos hb, if_neg hcur]
    simp only [writeEnt_get_same, writeEnt_collapse, hb, if_true]
  · rw [Bool.not_eq_true] at hb
    rw [hb]
    simp only [Bool.false_eq_true, if_false, if_neg hcur, writeEnt_get_same]

/-- levelStep on the unmap path (valid = FALSE, flags = 0) over a nonzero
entry is a semantic no-op: the state is unchanged and the walk moves to the
child address of the entry. -/
theorem levelStep_unmap (va lvl : Nat) (s : PTState) (cur : Nat)
    (hcur : cur ≠ 0) (he : s.mem cur (IDX va lvl) ≠ 0) :
    levelStep false false va 0 lvl s cur =
      (Status.success, s, childAddr (s.mem cur (IDX va lvl))) := by
  rw [levelStep_or false false va 0 lvl s cur hcur he]
  have hUF : updateFlags (s.mem cur (IDX va lvl)) false 0 = s.mem cur (IDX va lvl) := by
    simp [updateFlags]
  simp only [Bool.and_false, Bool.false_eq_true, if_false, hUF]
  rw [writeEnt_noop s.mem cur (IDX va lvl) _ rfl]

/-- levelStep on a zero entry with an available allocator page: the fresh
page is zeroed, linked into the slot (valid bit and flags applied), and the
walk moves into it. -/
theorem levelStep_alloc (v sfo : Bool) (va flags lvl : Nat) (s : PTState) (cur f : Nat)
    (rest : List Nat) (hcur : cur ≠ 0) (he : s.mem cur (IDX va lvl) = 0)
    (halloc : s.alloc = f :: rest) :
    levelStep v sfo va flags lvl s cur =
      (Status.success,
       { mem := writeEnt (zeroNode s.mem f) cur (IDX va lvl)
           (updateFlags (if !sfo && v then f ||| PAGE_TABLE_ENTRY_VALID_BIT else f) sfo flags),
         alloc := rest },
       childAddr (updateFlags (if !sfo && v then f ||| PAGE_TABLE_ENTRY_VALID_BIT else f)
         sfo flags)) := by
  unfold levelStep
  rw [if_pos he, halloc]
  by_cases hb : (!sfo && v) = true
  · rw [hb]
    simp only [if_true, writeEnt_get_same, writeEnt_collapse, if_neg hcur]
  · rw [Bool.not_eq_true] at hb
    rw [hb]
    simp only [Bool.false_eq_true, if_false, if_neg hcur, writeEnt_get_same, writeEnt_collapse]

/-- levelStep on a zero entry with an exhausted allocator fails with
EFI_OUT_OF_RESOURCES and leaves the state untouched. -/
theorem levelStep_fail (v sfo : Bool) (va flags lvl : Nat) (s : PTState) (cur : Nat)
    (he : s.mem cur (IDX va lvl) = 0) (halloc : s.alloc = []) :
    levelStep v sfo va flags lvl s cur = (Status.outOfResources, s, 0) := by
  unfold levelStep
  rw [if_pos he, halloc]

/-- leafStep on the map path (valid = TRUE): the leaf entry is overwritten
with the masked output address, the valid bit and the flags; the log flag
records whether the old entry was already valid. -/
theorem leafStep_valid (s : PTState) (cur va pa flags : Nat) (hcur : cur ≠ 0) :
    leafStep s cur va pa flags true false =
      (Status.success,
       { mem := writeEnt s.mem cur (IDX va 3)
           (((pa &&& NOT_BLOCK_OFFSET) ||| PAGE_TABLE_ENTRY_VALID_BIT) ||| flags),
         alloc := s.alloc },
       (s.mem cur (IDX va 3) &&& PAGE_TABLE_ENTRY_VALID_BIT != 0)) := by
  unfold leafStep
  rw [if_neg hcur]
  simp only [Bool.not_false, Bool.true_and, if_true, writeEnt_get_same, writeEnt_collapse]
  rfl

/-- leafStep on the unmap path (valid = FALSE, flags = 0): only the valid bit
of the leaf entry is cleared. -/
theorem leafStep_invalid (s : PTState) (cur va pa : Nat) (hcur : cur ≠ 0) :
    leafStep s cur va pa 0 false false =
      (Status.success,
       { mem := writeEnt s.mem cur (IDX va 3) (s.mem cur (IDX va 3) &&& NOT_VALID),
         alloc := s.alloc },
       false) := by
  unfold leafStep
  rw [if_neg hcur]
  simp only [Bool.not_false, Bool.false_and, if_true, Bool.false_eq_true, if_false,
    writeEnt_get_same, writeEnt_collapse]
  have hUF : updateFlags (s.mem cur (IDX va 3) &&& NOT_VALID) false 0 =
      s.mem cur (IDX va 3) &&& NOT_VALID := by simp [updateFlags]
  rw [hUF]

theorem updateFlags_false (e flags : Nat) : updateFlags e false flags = e ||| flags := by
  simp [updateFlags]

theorem lor_one_ne_zero (x f : Nat) : ((x ||| PAGE_TABLE_ENTRY_VALID_BIT) ||| f) ≠ 0 := by
  intro h
  have hv := valid_bit_of_lor_one x f
  rw [h] at hv
  exact absurd hv (by decide)

/-- A store whose value keeps the child-address field of the old entry does
not change any walk. -/
theorem nodeSeq_stable_write (m : Mem) (root a i v : Nat)
    (hv : childAddr v = childAddr (m a i)) (va : Nat) :
    ∀ k, nodeSeq (writeEnt m a i v) root va k = nodeSeq m root va k := by
  intro k
  induction k with
  | zero => rfl
  | succ k ih =>
    show childAddr (writeEnt m a i v (nodeSeq (writeEnt m a i v) root va k) (IDX va k)) =
      childAddr (m (nodeSeq m root va k) (IDX va k))
    rw [ih]
    by_cases hs : nodeSeq m root va k = a ∧ IDX va k = i
    · rw [hs.1, hs.2, writeEnt_get_same, hv]
    · rw [writeEnt_get_other m a i v _ _ hs]

/-- Entry values along a walk after a child-address-preserving store. -/
theorem pathEnt_write (m : Mem) (root a i v : Nat)
    (hv : childAddr v = childAddr (m a i)) (va k : Nat) :
    pathEnt (writeEnt m a i v) root va k =
      if nodeSeq m root va k = a ∧ IDX va k = i then v else pathEnt m root va k := by
  unfold pathEnt
  rw [nodeSeq_stable_write m root a i v hv va k]
  by_cases hs : nodeSeq m root va k = a ∧ IDX va k = i
  · rw [if_pos hs, hs.1, hs.2, writeEnt_get_same]
  · rw [if_neg hs, writeEnt_get_other m a i v _ _ hs]

/-- UpdateMapping on the unmap path (valid = FALSE, flags = 0) over a fully
linked walk: it returns EFI_SUCCESS, allocates nothing, emits no log, and its
only memory effect is clearing the valid bit of the leaf entry of the
walk. -/
theorem updateMapping_unmap (s : PTState) (root va pa : Nat)
    (hroot : root ≠ 0)
    (h0 : entOk (pathEnt s.mem root va 0))
    (h1 : entOk (pathEnt s.mem root va 1))
    (h2 : entOk (pathEnt s.mem root va 2)) :
    updateMapping s root va pa 0 false false =
      (Status.success,
       { mem := writeEnt s.mem (nodeSeq s.mem root va 3) (IDX va 3)
           (pathEnt s.mem root va 3 &&& NOT_VALID),
         alloc := s.alloc },
       false) := by
  have e0 : s.mem root (IDX va 0) ≠ 0 := entOk_ne_zero h0
  have hn1 : childAddr (s.mem root (IDX va 0)) ≠ 0 := entOk_child_ne_zero h0
  have e1 : s.mem (childAddr (s.mem root (IDX va 0))) (IDX va 1) ≠ 0 := entOk_ne_zero h1
  have hn2 : childAddr (s.mem (childAddr (s.mem root (IDX va 0))) (IDX va 1)) ≠ 0 :=
    entOk_child_ne_zero h1
  have e2 : s.mem (childAddr (s.mem (childAddr (s.mem root (IDX va 0))) (IDX va 1)))
      (IDX va 2) ≠ 0 := entOk_ne_zero h2
  have hn3 : childAddr (s.mem (childAddr (s.mem (childAddr (s.mem root (IDX va 0)))
      (IDX va 1))) (IDX va 2)) ≠ 0 := entOk_child_ne_zero h2
  unfold updateMapping
  rw [if_neg hroot]
  simp only [levelStep_unmap va 0 s root hroot e0,
    levelStep_unmap va 1 s _ hn1 e1,
    levelStep_unmap va 2 s _ hn2 e2,
    leafStep_invalid s _ va pa hn3,
    ne_eq, reduceIte]
  rfl

/-! ### The map path of UpdateMapping over a fully linked walk -/

theorem lor_lor_absorb (a b c : Nat) : ((a ||| b) ||| c) ||| b = (a ||| b) ||| c := by
  apply Nat.eq_of_testBit_eq
  intro i
  simp only [Nat.testBit_or]
  cases hta : a.testBit i <;> cases htb : b.testBit i <;> cases htc : c.testBit i <;> rfl

theorem orVF_absorb (flags x : Nat) : orVF flags (orVF flags x) = orVF flags x := by
  unfold orVF
  rw [lor_lor_absorb x PAGE_TABLE_ENTRY_VALID_BIT flags, lor_absorb]

theorem orVF_ne_zero (flags x : Nat) : orVF flags x ≠ 0 := lor_one_ne_zero x flags

theorem orVF_valid_bit (flags x : Nat) :
    orVF flags x &&& PAGE_TABLE_ENTRY_VALID_BIT = PAGE_TABLE_ENTRY_VALID_BIT :=
  valid_bit_of_lor_one x flags

theorem childAddr_orVF (flags e : Nat) (hf : flags < 4096) :
    childAddr (orVF flags e) = childAddr e := by
  unfold orVF
  rw [childAddr_lor_small _ flags hf, childAddr_lor_small _ PAGE_TABLE_ENTRY_VALID_BIT (by decide)]

theorem mapStepMem_pointwise (flags : Nat) (m : Mem) (a i w j : Nat) :
    mapStepMem flags m a i w j = m w j ∨ mapStepMem flags m a i w j = orVF flags (m w j) := by
  unfold mapStepMem
  by_cases hs : w = a ∧ j = i
  · right
    rw [hs.1, hs.2, writeEnt_get_same]
  · left
    exact writeEnt_get_other m a i _ w j hs

theorem orVF_closure (flags x y z : Nat) (h1 : y = x ∨ y = orVF flags x)
    (h2 : z = y ∨ z = orVF flags y) : z = x ∨ z = orVF flags x := by
  rcases h1 with h1 | h1 <;> rcases h2 with h2 | h2 <;> subst h1 <;> subst h2
  · exact Or.inl rfl
  · exact Or.inr rfl
  · exact Or.inr rfl
  · exact Or.inr (orVF_absorb flags x)

theorem mapStepMem_get (flags : Nat) (m : Mem) (a i w j : Nat) :
    mapStepMem flags m a i w j =
      if w = a ∧ j = i then orVF flags (m a i) else m w j := by
  unfold mapStepMem
  by_cases hs : w = a ∧ j = i
  · rw [if_pos hs, hs.1, hs.2, writeEnt_get_same]
  · rw [if_neg hs, writeEnt_get_other m a i _ w j hs]

/-- levelStep on the map path (valid = TRUE) over a nonzero entry. -/
theorem levelStep_map (va flags lvl : Nat) (s : PTState) (cur : Nat)
    (hcur : cur ≠ 0) (he : s.mem cur (IDX va lvl) ≠ 0) :
    levelStep true false va flags lvl s cur =
      (Status.success, { mem := mapStepMem flags s.mem cur (IDX va lvl), alloc := s.alloc },
       childAddr (orVF flags (s.mem cur (IDX va lvl)))) := by
  rw [levelStep_or true false va flags lvl s cur hcur he]
  simp only [Bool.not_false, Bool.and_self, reduceIte, updateFlags_false, mapStepMem, orVF]

/-- UpdateMapping on the map path (valid = TRUE) over a fully linked walk
whose leaf node differs from the three intermediate nodes: it returns
EFI_SUCCESS, allocates nothing, logs exactly when the old leaf entry was
already valid, overwrites the leaf entry with the masked output address plus
valid bit and flags, ORs the valid bit and the flags into the intermediate
entries of the walk, and changes no other slot. -/
theorem updateMapping_map (s : PTState) (root va pa flags : Nat)
    (hroot : root ≠ 0) (hflags : flags < 4096)
    (h0 : entOk (pathEnt s.mem root va 0))
    (h1 : entOk (pathEnt s.mem root va 1))
    (h2 : entOk (pathEnt s.mem root va 2))
    (hsep : ∀ k, k < 3 → nodeSeq s.mem root va 3 ≠ nodeSeq s.mem root va k) :
    (updateMapping s root va pa flags true false).1 = Status.success ∧
    (updateMapping s root va pa flags true false).2.1.alloc = s.alloc ∧
    (updateMapping s root va pa flags true false).2.2 =
      (pathEnt s.mem root va 3 &&& PAGE_TABLE_ENTRY_VALID_BIT != 0) ∧
    (updateMapping s root va pa flags true false).2.1.mem
      (nodeSeq s.mem root va 3) (IDX va 3) = mapLeafVal pa flags ∧
    (∀ k, k < 3 →
      (updateMapping s root va pa flags true false).2.1.mem
        (nodeSeq s.mem root va k) (IDX va k) =
        orVF flags (s.mem (nodeSeq s.mem root va k) (IDX va k))) ∧
    (∀ n i, (∀ k, k ≤ 3 → ¬(n = nodeSeq s.mem root va k ∧ i = IDX va k)) →
      (updateMapping s root va pa flags true false).2.1.mem n i = s.mem n i) ∧
    (∀ n i, (updateMapping s root va pa flags true false).2.1.mem n i = s.mem n i ∨
      (updateMapping s root va pa flags true false).2.1.mem n i = orVF flags (s.mem n i) ∨
      (n = nodeSeq s.mem root va 3 ∧ i = IDX va 3)) := by
  have e0 : s.mem root (IDX va 0) ≠ 0 := entOk_ne_zero h0
  have hn1 : nodeSeq s.mem root va 1 ≠ 0 := entOk_child_ne_zero h0
  have hn2 : nodeSeq s.mem root va 2 ≠ 0 := entOk_child_ne_zero h1
  have hn3 : nodeSeq s.mem root va 3 ≠ 0 := entOk_child_ne_zero h2
  have hm1 : ∀ n i, mapStepMem flags s.mem root (IDX va 0) n i = s.mem n i ∨
      mapStepMem flags s.mem root (IDX va 0) n i = orVF flags (s.mem n i) :=
    fun n i => mapStepMem_pointwise flags s.mem root (IDX va 0) n i
  have hm2 : ∀ n i,
      mapStepMem flags (mapStepMem flags s.mem root (IDX va 0))
        (nodeSeq s.mem root va 1) (IDX va 1) n i = s.mem n i ∨
      mapStepMem flags (mapStepMem flags s.mem root (IDX va 0))
        (nodeSeq s.mem root va 1) (IDX va 1) n i = orVF flags (s.mem n i) :=
    fun n i => orVF_closure flags _ _ _ (hm1 n i)
      (mapStepMem_pointwise flags _ (nodeSeq s.mem root va 1) (IDX va 1) n i)
  have hm3 : ∀ n i,
      mapStepMem flags (mapStepMem flags (mapStepMem flags s.mem root (IDX va 0))
        (nodeSeq s.mem root va 1) (IDX va 1)) (nodeSeq s.mem root va 2) (IDX va 2) n i =
        s.mem n i ∨
      mapStepMem flags (mapStepMem flags (mapStepMem flags s.mem root (IDX va 0))
        (nodeSeq s.mem root va 1) (IDX va 1)) (nodeSeq s.mem root va 2) (IDX va 2) n i =
        orVF flags (s.mem n i) :=
    fun n i => orVF_closure flags _ _ _ (hm2 n i)
      (mapStepMem_pointwise flags _ (nodeSeq s.mem root va 2) (IDX va 2) n i)
  have he1 : mapStepMem flags s.mem root (IDX va 0)
      (nodeSeq s.mem root va 1) (IDX va 1) ≠ 0 := by
    rcases hm1 (nodeSeq s.mem root va 1) (IDX va 1) with h | h
    · rw [h]; exact entOk_ne_zero h1
    · rw [h]; exact orVF_ne_zero flags _
  have he2 : mapStepMem flags (mapStepMem flags s.mem root (IDX va 0))
      (nodeSeq s.mem root va 1) (IDX va 1) (nodeSeq s.mem root va 2) (IDX va 2) ≠ 0 := by
    rcases hm2 (nodeSeq s.mem root va 2) (IDX va 2) with h | h
    · rw [h]; exact entOk_ne_zero h2
    · rw [h]; exact orVF_ne_zero flags _
  have hcur1 : childAddr (orVF flags (s.mem root (IDX va 0))) = nodeSeq s.mem root va 1 := by
    rw [childAddr_orVF flags _ hflags]
    rfl
  have hcur2 : childAddr (orVF flags (mapStepMem flags s.mem root (IDX va 0)
      (nodeSeq s.mem root va 1) (IDX va 1))) = nodeSeq s.mem root va 2 := by
    rw [childAddr_orVF flags _ hflags]
    rcases hm1 (nodeSeq s.mem root va 1) (IDX va 1) with h | h
    · rw [h]
      rfl
    · rw [h, childAddr_orVF flags _ hflags]
      rfl
  have hcur3 : childAddr (orVF flags (mapStepMem flags (mapStepMem flags s.mem root
      (IDX va 0)) (nodeSeq s.mem root va 1) (IDX va 1)
      (nodeSeq s.mem root va 2) (IDX va 2))) = nodeSeq s.mem root va 3 := by
    rw [childAddr_orVF flags _ hflags]
    rcases hm2 (nodeSeq s.mem root va 2) (IDX va 2) with h | h
    · rw [h]
      rfl
    · rw [h, childAddr_orVF flags _ hflags]
      rfl
  have hlog : mapStepMem flags (mapStepMem flags (mapStepMem flags s.mem root (IDX va 0))
      (nodeSeq s.mem root va 1) (IDX va 1)) (nodeSeq s.mem root va 2) (IDX va 2)
      (nodeSeq s.mem root va 3) (IDX va 3) = s.mem (nodeSeq s.mem root va 3) (IDX va 3) := by
    unfold mapStepMem
    rw [writeEnt_get_other _ _ _ _ _ _ (fun hc => hsep 2 (by omega) hc.1),
      writeEnt_get_other _ _ _ _ _ _ (fun hc => hsep 1 (by omega) hc.1),
      writeEnt_get_other s.mem root (IDX va 0) _ (nodeSeq s.mem root va 3) (IDX va 3)
        (fun hc => hsep 0 (by omega) hc.1)]
  have hcomp : updateMapping s root va pa flags true false =
      (Status.success,
       { mem := writeEnt (mapStepMem flags (mapStepMem flags (mapStepMem flags s.mem root
             (IDX va 0)) (nodeSeq s.mem root va 1) (IDX va 1)) (nodeSeq s.mem root va 2)
             (IDX va 2)) (nodeSeq s.mem root va 3) (IDX va 3) (mapLeafVal pa flags),
         alloc := s.alloc },
       (s.mem (nodeSeq s.mem root va 3) (IDX va 3) &&& PAGE_TABLE_ENTRY_VALID_BIT != 0)) := by
    unfold updateMapping
    rw [if_neg hroot]
    simp only [levelStep_map va flags 0 s root hroot e0, hcur1,
      levelStep_map va flags 1 ⟨mapStepMem flags s.mem root (IDX va 0), s.alloc⟩
        (nodeSeq s.mem root va 1) hn1 he1,
      hcur2,
      levelStep_map va flags 2 ⟨mapStepMem flags (mapStepMem flags s.mem root (IDX va 0))
        (nodeSeq s.mem root va 1) (IDX va 1), s.alloc⟩ (nodeSeq s.mem root va 2) hn2 he2,
      hcur3,
      leafStep_valid ⟨mapStepMem flags (mapStepMem flags (mapStepMem flags s.mem root
        (IDX va 0)) (nodeSeq s.mem root va 1) (IDX va 1)) (nodeSeq s.mem root va 2)
        (IDX va 2), s.alloc⟩ (nodeSeq s.mem root va 3) va pa flags hn3,
      hlog, ne_eq, reduceIte]
    rfl
  have hv2 : mapStepMem flags (mapStepMem flags (mapStepMem flags s.mem root (IDX va 0))
      (nodeSeq s.mem root va 1) (IDX va 1)) (nodeSeq s.mem root va 2) (IDX va 2)
      (nodeSeq s.mem root va 2) (IDX va 2) =
      orVF flags (s.mem (nodeSeq s.mem root va 2) (IDX va 2)) := by
    rw [mapStepMem_get, if_pos ⟨rfl, rfl⟩]
    rcases hm2 (nodeSeq s.mem root va 2) (IDX va 2) with h | h
    · rw [h]
    · rw [h, orVF_absorb]
  have hv1 : mapStepMem flags (mapStepMem flags (mapStepMem flags s.mem root (IDX va 0))
      (nodeSeq s.mem root va 1) (IDX va 1)) (nodeSeq s.mem root va 2) (IDX va 2)
      (nodeSeq s.mem root va 1) (IDX va 1) =
      orVF flags (s.mem (nodeSeq s.mem root va 1) (IDX va 1)) := by
    by_cases hc : nodeSeq s.mem root va 1 = nodeSeq s.mem root va 2 ∧ IDX va 1 = IDX va 2
    · rw [mapStepMem_get, if_pos hc]
      rcases hm2 (nodeSeq s.mem root va 2) (IDX va 2) with h | h
      · rw [h, ← hc.1, ← hc.2]
      · rw [h, orVF_absorb, ← hc.1, ← hc.2]
    · rw [mapStepMem_get, if_neg hc, mapStepMem_get, if_pos ⟨rfl, rfl⟩]
      rcases hm1 (nodeSeq s.mem root va 1) (IDX va 1) with h | h
      · rw [h]
      · rw [h, orVF_absorb]
  have hv0 : mapStepMem flags (mapStepMem flags (mapStepMem flags s.mem root (IDX va 0))
      (nodeSeq s.mem root va 1) (IDX va 1)) (nodeSeq s.mem root va 2) (IDX va 2)
      root (IDX va 0) =
      orVF flags (s.mem root (IDX va 0)) := by
    by_cases hc2 : root = nodeSeq s.mem root va 2 ∧ IDX va 0 = IDX va 2
    · rw [mapStepMem_get, if_pos hc2]
      rcases hm2 (nodeSeq s.mem root va 2) (IDX va 2) with h | h
      · rw [h, ← hc2.1, ← hc2.2]
      · rw [h, orVF_absorb, ← hc2.1, ← hc2.2]
    · rw [mapStepMem_get, if_neg hc2]
      by_cases hc1 : root = nodeSeq s.mem root va 1 ∧ IDX va 0 = IDX va 1
      · rw [mapStepMem_get, if_pos hc1]
        rcases hm1 (nodeSeq s.mem root va 1) (IDX va 1) with h | h
        · rw [h, ← hc1.1, ← hc1.2]
        · rw [h, orVF_absorb, ← hc1.1, ← hc1.2]
      · rw [mapStepMem_get, if_neg hc1, mapStepMem_get, if_pos ⟨rfl, rfl⟩]
  refine ⟨by rw [hcomp], by rw [hcomp], ?_, ?_, ?_, ?_, ?_⟩
  · rw [hcomp]
    rfl
  · rw [hcomp]
    exact writeEnt_get_same _ (nodeSeq s.mem root va 3) (IDX va 3) (mapLeafVal pa flags)
  · intro k hk
    rw [hcomp]
    show writeEnt (mapStepMem flags (mapStepMem flags (mapStepMem flags s.mem root (IDX va 0))
        (nodeSeq s.mem root va 1) (IDX va 1)) (nodeSeq s.mem root va 2) (IDX va 2))
        (nodeSeq s.mem root va 3) (IDX va 3) (mapLeafVal pa flags)
        (nodeSeq s.mem root va k) (IDX va k) =
      orVF flags (s.mem (nodeSeq s.mem root va k) (IDX va k))
    rw [writeEnt_get_other _ _ _ _ _ _ (fun hc => hsep k hk hc.1.symm)]
    interval_cases k
    · exact hv0
    · exact hv1
    · exact hv2
  · intro n i hfar
    rw [hcomp]
    show writeEnt (mapStepMem flags (mapStepMem flags (mapStepMem flags s.mem root (IDX va 0))
        (nodeSeq s.mem root va 1) (IDX va 1)) (nodeSeq s.mem root va 2) (IDX va 2))
        (nodeSeq s.mem root va 3) (IDX va 3) (mapLeafVal pa flags) n i = s.mem n i
    rw [writeEnt_get_other _ _ _ _ _ _ (hfar 3 (by omega))]
    unfold mapStepMem
    rw [writeEnt_get_other _ _ _ _ _ _ (hfar 2 (by omega)),
      writeEnt_get_other _ _ _ _ _ _ (hfar 1 (by omega)),
      writeEnt_get_other s.mem root (IDX va 0) _ n i (hfar 0 (by omega))]
  · intro n i
    by_cases hleaf : n = nodeSeq s.mem root va 3 ∧ i = IDX va 3
    · exact Or.inr (Or.inr hleaf)
    · rw [hcomp]
      have hv : writeEnt (mapStepMem flags (mapStepMem flags (mapStepMem flags s.mem root
          (IDX va 0)) (nodeSeq s.mem root va 1) (IDX va 1)) (nodeSeq s.mem root va 2)
          (IDX va 2)) (nodeSeq s.mem root va 3) (IDX va 3) (mapLeafVal pa flags) n i =
          mapStepMem flags (mapStepMem flags (mapStepMem flags s.mem root
          (IDX va 0)) (nodeSeq s.mem root va 1) (IDX va 1)) (nodeSeq s.mem root va 2)
          (IDX va 2) n i := writeEnt_get_other _ _ _ _ _ _ hleaf
      rcases hm3 n i with h | h
      · exact Or.inl (hv.trans h)
      · exact Or.inr (Or.inl (hv.trans h))

/-! ### The unmap path over a range of pages -/

@[simp] theorem isError_success : isError Status.success = false := rfl

@[simp] theorem isError_outOfResources : isError Status.outOfResources = true := rfl

theorem entOk_orVF {e : Nat} (flags : Nat) (hf : flags < 4096) :
    entOk (orVF flags e) ↔ entOk e := by
  unfold orVF
  rw [entOk_lor_small flags hf, entOk_lor_small PAGE_TABLE_ENTRY_VALID_BIT (by decide)]

theorem isLeafSlotB_congr (m m2 : Mem) (root : Nat) (ps : List Nat) (n i : Nat)
    (h : ∀ p ∈ ps, nodeSeq m2 root p 3 = nodeSeq m root p 3) :
    isLeafSlotB m2 root ps n i = isLeafSlotB m root ps n i := by
  unfold isLeafSlotB
  induction ps with
  | nil => rfl
  | cons q qs ih =>
    simp only [List.any_cons]
    rw [h q (by simp), ih (fun p hp => h p (by simp [hp]))]

theorem isLeafSlotB_self (m : Mem) (root : Nat) (ps : List Nat) (p : Nat) (hp : p ∈ ps) :
    isLeafSlotB m root ps (nodeSeq m root p 3) (IDX p 3) = true := by
  unfold isLeafSlotB
  rw [List.any_eq_true]
  exact ⟨p, hp, by simp⟩

theorem isLeafSlotB_true {m : Mem} {root : Nat} {ps : List Nat} {n i : Nat}
    (h : isLeafSlotB m root ps n i = true) :
    ∃ p ∈ ps, n = nodeSeq m root p 3 ∧ i = IDX p 3 := by
  unfold isLeafSlotB at h
  rw [List.any_eq_true] at h
  obtain ⟨p, hp, hb⟩ := h
  refine ⟨p, hp, ?_⟩
  simpa using hb

theorem isLeafSlotB_false_of (m : Mem) (root : Nat) (ps : List Nat) (n i : Nat)
    (h : ∀ p ∈ ps, ¬(n = nodeSeq m root p 3 ∧ i = IDX p 3)) :
    isLeafSlotB m root ps n i = false := by
  cases hb : isLeafSlotB m root ps n i
  · rfl
  · obtain ⟨p, hp, hc⟩ := isLeafSlotB_true hb
    exact absurd hc (h p hp)

theorem isLeafSlotB_cons (m : Mem) (root : Nat) (p : Nat) (ps : List Nat) (n i : Nat) :
    isLeafSlotB m root (p :: ps) n i =
      ((n == nodeSeq m root p 3 && i == IDX p 3) || isLeafSlotB m root ps n i) := by
  simp [isLeafSlotB, List.any_cons]

/-- The full unmap loop over a list of pages each of which has a fully linked
walk: it succeeds, consumes no allocator pages, changes no walk, and its only
memory effect is clearing the valid bit of the leaf entry of every page in
the list. -/
theorem runPages_unmap (root : Nat) (hroot : root ≠ 0) :
    ∀ (todo : List Nat) (s : PTState), todo ≠ [] →
      (∀ p ∈ todo, ∀ k, k < 3 → entOk (pathEnt s.mem root p k)) →
      (runPages root 0 false false todo s).1 = Status.success ∧
      (runPages root 0 false false todo s).2.alloc = s.alloc ∧
      (∀ va k, nodeSeq (runPages root 0 false false todo s).2.mem root va k =
        nodeSeq s.mem root va k) ∧
      (∀ n i, (runPages root 0 false false todo s).2.mem n i =
        if isLeafSlotB s.mem root todo n i then s.mem n i &&& NOT_VALID else s.mem n i) := by
  intro todo
  induction todo with
  | nil => intro s hne _; exact absurd rfl hne
  | cons p rest ih =>
    intro s _ hpaths
    have hp0 := hpaths p (by simp) 0 (by omega)
    have hp1 := hpaths p (by simp) 1 (by omega)
    have hp2 := hpaths p (by simp) 2 (by omega)
    have hstep := updateMapping_unmap s root p p hroot hp0 hp1 hp2
    have hW : childAddr (pathEnt s.mem root p 3 &&& NOT_VALID) =
        childAddr (s.mem (nodeSeq s.mem root p 3) (IDX p 3)) := childAddr_NV _
    cases rest with
    | nil =>
      have hrun : runPages root 0 false false [p] s =
          (Status.success,
            { mem := writeEnt s.mem (nodeSeq s.mem root p 3) (IDX p 3)
                (pathEnt s.mem root p 3 &&& NOT_VALID), alloc := s.alloc }) := by
        rw [runPages_cons, hstep]
        rfl
      rw [hrun]
      refine ⟨rfl, rfl, ?_, ?_⟩
      · intro va k
        exact nodeSeq_stable_write s.mem root _ _ _ hW va k
      · intro n i
        show writeEnt s.mem (nodeSeq s.mem root p 3) (IDX p 3)
            (pathEnt s.mem root p 3 &&& NOT_VALID) n i =
          if isLeafSlotB s.mem root [p] n i then s.mem n i &&& NOT_VALID else s.mem n i
        by_cases hs : n = nodeSeq s.mem root p 3 ∧ i = IDX p 3
        · obtain ⟨hn, hi⟩ := hs
          subst hn
          subst hi
          rw [writeEnt_get_same, isLeafSlotB_self s.mem root [p] p (by simp)]
          simp [pathEnt]
        · rw [writeEnt_get_other _ _ _ _ _ _ hs,
            isLeafSlotB_false_of s.mem root [p] n i
              (by intro q hq; simp at hq; subst hq; exact hs)]
          simp
    | cons q qs =>
      have hs1paths : ∀ r ∈ q :: qs, ∀ k, k < 3 →
          entOk (pathEnt (writeEnt s.mem (nodeSeq s.mem root p 3) (IDX p 3)
            (pathEnt s.mem root p 3 &&& NOT_VALID)) root r k) := by
        intro r hr k hk
        have hbase := hpaths r (by simp [hr]) k hk
        rw [pathEnt_write s.mem root _ _ _ hW r k]
        by_cases hsl : nodeSeq s.mem root r k = nodeSeq s.mem root p 3 ∧ IDX r k = IDX p 3
        · rw [if_pos hsl, entOk_NV]
          have hbase2 : entOk (s.mem (nodeSeq s.mem root r k) (IDX r k)) := hbase
          rw [hsl.1, hsl.2] at hbase2
          exact hbase2
        · rw [if_neg hsl]
          exact hbase
      have hih := ih
        { mem := writeEnt s.mem (nodeSeq s.mem root p 3) (IDX p 3)
            (pathEnt s.mem root p 3 &&& NOT_VALID), alloc := s.alloc }
        (by simp) hs1paths
      have hchain : runPages root 0 false false (p :: q :: qs) s =
          runPages root 0 false false (q :: qs)
            { mem := writeEnt s.mem (nodeSeq s.mem root p 3) (IDX p 3)
                (pathEnt s.mem root p 3 &&& NOT_VALID), alloc := s.alloc } := by
        rw [runPages_cons, hstep]
        rfl
      have hm3 : ∀ va k, nodeSeq (runPages root 0 false false (q :: qs)
          { mem := writeEnt s.mem (nodeSeq s.mem root p 3) (IDX p 3)
              (pathEnt s.mem root p 3 &&& NOT_VALID), alloc := s.alloc }).2.mem root va k =
          nodeSeq (writeEnt s.mem (nodeSeq s.mem root p 3) (IDX p 3)
            (pathEnt s.mem root p 3 &&& NOT_VALID)) root va k := hih.2.2.1
      have hm4 : ∀ n i, (runPages root 0 false false (q :: qs)
          { mem := writeEnt s.mem (nodeSeq s.mem root p 3) (IDX p 3)
              (pathEnt s.mem root p 3 &&& NOT_VALID), alloc := s.alloc }).2.mem n i =
          if isLeafSlotB (writeEnt s.mem (nodeSeq s.mem root p 3) (IDX p 3)
              (pathEnt s.mem root p 3 &&& NOT_VALID)) root (q :: qs) n i then
            writeEnt s.mem (nodeSeq s.mem root p 3) (IDX p 3)
              (pathEnt s.mem root p 3 &&& NOT_VALID) n i &&& NOT_VALID
          else
            writeEnt s.mem (nodeSeq s.mem root p 3) (IDX p 3)
              (pathEnt s.mem root p 3 &&& NOT_VALID) n i := hih.2.2.2
      rw [hchain]
      refine ⟨hih.1, hih.2.1, ?_, ?_⟩
      · intro va k
        rw [hm3 va k]
        exact nodeSeq_stable_write s.mem root _ _ _ hW va k
      · intro n i
        rw [hm4 n i]
        rw [isLeafSlotB_congr s.mem (writeEnt s.mem (nodeSeq s.mem root p 3) (IDX p 3)
            (pathEnt s.mem root p 3 &&& NOT_VALID)) root (q :: qs) n i
          (fun r _ => nodeSeq_stable_write s.mem root _ _ _ hW r 3)]
        rw [isLeafSlotB_cons s.mem root p (q :: qs) n i]
        by_cases hps : n = nodeSeq s.mem root p 3 ∧ i = IDX p 3
        · obtain ⟨hn, hi⟩ := hps
          subst hn
          subst hi
          rw [writeEnt_get_same]
          by_cases hrest : isLeafSlotB s.mem root (q :: qs)
              (nodeSeq s.mem root p 3) (IDX p 3) = true
          · rw [hrest]
            simp [pathEnt, NV_idem]
          · rw [Bool.not_eq_true] at hrest
            rw [hrest]
            simp [pathEnt]
        · rw [writeEnt_get_other _ _ _ _ _ _ hps]
          have hb : ((n == nodeSeq s.mem root p 3 && (i == IDX p 3)) : Bool) = false := by
            by_cases hn : n = nodeSeq s.mem root p 3
            · have hi : i ≠ IDX p 3 := fun hi => hps ⟨hn, hi⟩
              simp [hn, hi]
            · simp [hn]
          rw [hb, Bool.false_or]

/-! ### Stability of walks under one map step, and the no-allocation property
of re-validation -/

/-- A memory whose pointwise difference from m is an orVF at some slots and
an arbitrary rewrite of the single slot (N, I) has the same walks as m for
every va whose intermediate nodes avoid N. -/
theorem nodeSeq_stable_of_pointwise (m m2 : Mem) (root flags N I : Nat)
    (hpw : ∀ n i, m2 n i = m n i ∨ m2 n i = orVF flags (m n i) ∨ (n = N ∧ i = I))
    (hf : flags < 4096) (va : Nat) (hva : ∀ k, k < 3 → nodeSeq m root va k ≠ N) :
    ∀ k, k ≤ 3 → nodeSeq m2 root va k = nodeSeq m root va k := by
  intro k
  induction k with
  | zero => intro _; rfl
  | succ k ih =>
    intro hk3
    have hk : k ≤ 3 := by omega
    have hlt : k < 3 := by omega
    show childAddr (m2 (nodeSeq m2 root va k) (IDX va k)) =
      childAddr (m (nodeSeq m root va k) (IDX va k))
    rw [ih hk]
    rcases hpw (nodeSeq m root va k) (IDX va k) with h | h | h
    · rw [h]
    · rw [h, childAddr_orVF flags _ hf]
    · exact absurd h.1 (hva k hlt)

/-- Under the same pointwise hypothesis, the intermediate path entries stay
linked (entOk) for every va whose intermediate nodes avoid N. -/
theorem pathEnt_entOk_of_pointwise (m m2 : Mem) (root flags N I : Nat)
    (hpw : ∀ n i, m2 n i = m n i ∨ m2 n i = orVF flags (m n i) ∨ (n = N ∧ i = I))
    (hf : flags < 4096) (va : Nat) (hva : ∀ k, k < 3 → nodeSeq m root va k ≠ N)
    (k : Nat) (hk : k < 3) (hok : entOk (pathEnt m root va k)) :
    entOk (pathEnt m2 root va k) := by
  unfold pathEnt
  rw [nodeSeq_stable_of_pointwise m m2 root flags N I hpw hf va hva k (by omega)]
  rcases hpw (nodeSeq m root va k) (IDX va k) with h | h | h
  · rw [h]
    exact hok
  · rw [h]
    exact (entOk_orVF flags hf).mpr hok
  · exact absurd h.1 (hva k hk)

/-- The validating map run over pages whose intermediate walks are fully
linked and whose leaf nodes are distinct from every intermediate node in
range: it succeeds and consumes no allocator pages (never allocates). -/
theorem runPages_map_noalloc (root flags : Nat) (hroot : root ≠ 0) (hflags : flags < 4096) :
    ∀ (todo : List Nat) (s : PTState), todo ≠ [] →
      (∀ p ∈ todo, ∀ k, k < 3 → entOk (pathEnt s.mem root p k)) →
      (∀ p ∈ todo, ∀ r ∈ todo, ∀ k, k < 3 →
        nodeSeq s.mem root r k ≠ nodeSeq s.mem root p 3) →
      (runPages root flags true false todo s).1 = Status.success ∧
      (runPages root flags true false todo s).2.alloc = s.alloc := by
  intro todo
  induction todo with
  | nil => intro s hne; exact absurd rfl hne
  | cons p rest ih =>
    intro s _ hpaths hsep
    have hp0 := hpaths p (by simp) 0 (by omega)
    have hp1 := hpaths p (by simp) 1 (by omega)
    have hp2 := hpaths p (by simp) 2 (by omega)
    have hsp : ∀ k, k < 3 → nodeSeq s.mem root p 3 ≠ nodeSeq s.mem root p k :=
      fun k hk => (hsep p (by simp) p (by simp) k hk).symm
    obtain ⟨hst, hal, _, _, _, _, hpw⟩ :=
      updateMapping_map s root p p flags hroot hflags hp0 hp1 hp2 hsp
    cases rest with
    | nil =>
      have hrun : runPages root flags true false [p] s =
          (Status.success, (updateMapping s root p p flags true false).2.1) := by
        rw [runPages_cons, hst]
        rfl
      refine ⟨?_, ?_⟩
      · rw [hrun]
      · rw [hrun]
        exact hal
    | cons q qs =>
      have hwalks : ∀ r ∈ q :: qs, ∀ k, k ≤ 3 →
          nodeSeq (updateMapping s root p p flags true false).2.1.mem root r k =
            nodeSeq s.mem root r k := by
        intro r hr k hk
        exact nodeSeq_stable_of_pointwise s.mem _ root flags
          (nodeSeq s.mem root p 3) (IDX p 3) hpw hflags r
          (fun k2 hk2 => hsep p (by simp) r (by simp [hr]) k2 hk2) k hk
      have hpaths2 : ∀ r ∈ q :: qs, ∀ k, k < 3 →
          entOk (pathEnt (updateMapping s root p p flags true false).2.1.mem root r k) := by
        intro r hr k hk
        exact pathEnt_entOk_of_pointwise s.mem _ root flags
          (nodeSeq s.mem root p 3) (IDX p 3) hpw hflags r
          (fun k2 hk2 => hsep p (by simp) r (by simp [hr]) k2 hk2) k hk
          (hpaths r (by simp [hr]) k hk)
      have hsep2 : ∀ p2 ∈ q :: qs, ∀ r ∈ q :: qs, ∀ k, k < 3 →
          nodeSeq (updateMapping s root p p flags true false).2.1.mem root r k ≠
            nodeSeq (updateMapping s root p p flags true false).2.1.mem root p2 3 := by
        intro p2 hp2m r hr k hk
        rw [hwalks r hr k (by omega), hwalks p2 hp2m 3 (by omega)]
        exact hsep p2 (by simp [hp2m]) r (by simp [hr]) k hk
      have hih := ih (updateMapping s root p p flags true false).2.1
        (by simp) hpaths2 hsep2
      have hchain : runPages root flags true false (p :: q :: qs) s =
          runPages root flags true false (q :: qs)
            (updateMapping s root p p flags true false).2.1 := by
        rw [runPages_cons, hst]
        rfl
      refine ⟨?_, ?_⟩
      · rw [hchain]
        exact hih.1
      · rw [hchain, hih.2]
        exact hal

/-- C9 witness: with three allocator pages, mapping [0x1FF000, 0x201000)
succeeds on the first page (consuming all three pages for its path) and runs
out of resources on the second page 0x200000, which needs a fresh leaf
node. -/
theorem c9_witness :
    pageList 0x1FF000 0x2000 = [0x1FF000] ++ 0x200000 :: [] ∧
    isError (runPages 0x5000 0x402 true false [0x1FF000] stateZ3).1 = false ∧
    (updateMapping (runPages 0x5000 0x402 true false [0x1FF000] stateZ3).2 0x5000
        0x200000 0x200000 0x402 true false).1 = Status.outOfResources ∧
    updatePageTable stateZ3 0x5000 0x1FF000 0x2000 0x402 true false =
      (Status.outOfResources,
       (updateMapping (runPages 0x5000 0x402 true false [0x1FF000] stateZ3).2 0x5000
         0x200000 0x200000 0x402 true false).2.1) :=
  ⟨by decide, by decide, by decide,
   c9_partial_failure stateZ3 0x5000 0x1FF000 0x2000 0x402 true false
     [0x1FF000] [] 0x200000 (by decide) (by decide) (by decide)⟩

/-- C4: over a range whose pages all have fully linked intermediate walks
(as left by a previous valid mapping) and whose leaf nodes are distinct from
every intermediate node of the range, the range update with valid = FALSE
and SetFlagsOnly = FALSE performed by IoMmuUnmap succeeds, allocates
nothing, clears exactly the valid bit of each leaf entry in the range,
leaves every walk (the child node pointers) and every non-leaf-slot entry
unchanged, and a subsequent re-validation of the same range with the
IoMmuMap flags succeeds and allocates no new nodes. -/
theorem c4_unmap_clears_only_leaf (s : PTState) (root addr bytes : Nat)
    (hroot : root ≠ 0) (hne : pageList addr bytes ≠ [])
    (hpaths : ∀ p ∈ pageList addr bytes, ∀ k, k < 3 → entOk (pathEnt s.mem root p k))
    (hsep : ∀ p ∈ pageList addr bytes, ∀ r ∈ pageList addr bytes, ∀ k, k < 3 →
      nodeSeq s.mem root r k ≠ nodeSeq s.mem root p 3) :
    (updatePageTable s root addr bytes 0 false false).1 = Status.success ∧
    (updatePageTable s root addr bytes 0 false false).2.alloc = s.alloc ∧
    (∀ p ∈ pageList addr bytes,
      walkLeaf (updatePageTable s root addr bytes 0 false false).2.mem root p =
        walkLeaf s.mem root p &&& NOT_VALID ∧
      walkLeaf (updatePageTable s root addr bytes 0 false false).2.mem root p &&&
        PAGE_TABLE_ENTRY_VALID_BIT = 0) ∧
    (∀ va k, nodeSeq (updatePageTable s root addr bytes 0 false false).2.mem root va k =
      nodeSeq s.mem root va k) ∧
    (∀ n i, isLeafSlotB s.mem root (pageList addr bytes) n i = false →
      (updatePageTable s root addr bytes 0 false false).2.mem n i = s.mem n i) ∧
    (updatePageTable (updatePageTable s root addr bytes 0 false false).2
        root addr bytes 0x402 true false).1 = Status.success ∧
    (updatePageTable (updatePageTable s root addr bytes 0 false false).2
        root addr bytes 0x402 true false).2.alloc =
      (updatePageTable s root addr bytes 0 false false).2.alloc := by
  unfold updatePageTable
  obtain ⟨hst, hal, hwalks, hpt⟩ := runPages_unmap root hroot (pageList addr bytes) s hne hpaths
  have hpaths2 : ∀ p ∈ pageList addr bytes, ∀ k, k < 3 →
      entOk (pathEnt (runPages root 0 false false (pageList addr bytes) s).2.mem root p k) := by
    intro p hp k hk
    unfold pathEnt
    rw [hwalks p k, hpt (nodeSeq s.mem root p k) (IDX p k)]
    by_cases hls : isLeafSlotB s.mem root (pageList addr bytes)
        (nodeSeq s.mem root p k) (IDX p k) = true
    · rw [if_pos hls]
      exact entOk_NV.mpr (hpaths p hp k hk)
    · rw [if_neg hls]
      exact hpaths p hp k hk
  have hsep2 : ∀ p ∈ pageList addr bytes, ∀ r ∈ pageList addr bytes, ∀ k, k < 3 →
      nodeSeq (runPages root 0 false false (pageList addr bytes) s).2.mem root r k ≠
        nodeSeq (runPages root 0 false false (pageList addr bytes) s).2.mem root p 3 := by
    intro p hp r hr k hk
    rw [hwalks r k, hwalks p 3]
    exact hsep p hp r hr k hk
  have hre := runPages_map_noalloc root 0x402 hroot (by decide) (pageList addr bytes)
    (runPages root 0 false false (pageList addr bytes) s).2 hne hpaths2 hsep2
  refine ⟨hst, hal, ?_, hwalks, ?_, hre.1, hre.2⟩
  · intro p hp
    have hwl : walkLeaf (runPages root 0 false false (pageList addr bytes) s).2.mem root p =
        (runPages root 0 false false (pageList addr bytes) s).2.mem
          (nodeSeq s.mem root p 3) (IDX p 3) := by
      unfold walkLeaf pathEnt
      rw [hwalks p 3]
    have hleaf : (runPages root 0 false false (pageList addr bytes) s).2.mem
        (nodeSeq s.mem root p 3) (IDX p 3) =
        s.mem (nodeSeq s.mem root p 3) (IDX p 3) &&& NOT_VALID := by
      rw [hpt (nodeSeq s.mem root p 3) (IDX p 3),
        isLeafSlotB_self s.mem root (pageList addr bytes) p hp]
      simp
    constructor
    · rw [hwl, hleaf]
      rfl
    · rw [hwl, hleaf]
      exact valid_bit_cleared _
  · intro n i h
    rw [hpt n i, h]
    simp

/-- C4 witness: from the empty table, map the single page 0x1000 with the
IoMmuMap flags (building a three-node path), then unmap the same range: the
unmap succeeds without touching the allocator, and re-validating the range
consumes no allocator pages. -/
theorem c4_witness :
    (updatePageTable (runPages 0x5000 0x402 true false [0x1000] stateZ3).2
        0x5000 0x1000 0x1000 0 false false).1 = Status.success ∧
    (updatePageTable (runPages 0x5000 0x402 true false [0x1000] stateZ3).2
        0x5000 0x1000 0x1000 0 false false).2.alloc =
      (runPages 0x5000 0x402 true false [0x1000] stateZ3).2.alloc ∧
    (updatePageTable (updatePageTable (runPages 0x5000 0x402 true false [0x1000] stateZ3).2
          0x5000 0x1000 0x1000 0 false false).2
        0x5000 0x1000 0x1000 0x402 true false).2.alloc =
      (updatePageTable (runPages 0x5000 0x402 true false [0x1000] stateZ3).2
        0x5000 0x1000 0x1000 0 false false).2.alloc := by
  have hlist : pageList 0x1000 0x1000 = [0x1000] := by decide
  have h := c4_unmap_clears_only_leaf (runPages 0x5000 0x402 true false [0x1000] stateZ3).2
    0x5000 0x1000 0x1000 (by decide) (by decide)
    (by
      intro p hp k hk
      rw [hlist] at hp
      have hp2 : p = 0x1000 := by simpa using hp
      subst hp2
      have h3 : k = 0 ∨ k = 1 ∨ k = 2 := by omega
      rcases h3 with h | h | h <;> subst h <;> decide)
    (by
      intro p hp r hr k hk
      rw [hlist] at hp hr
      have hp2 : p = 0x1000 := by simpa using hp
      have hr2 : r = 0x1000 := by simpa using hr
      subst hp2
      subst hr2
      have h3 : k = 0 ∨ k = 1 ∨ k = 2 := by omega
      rcases h3 with h | h | h <;> subst h <;> decide)
  exact ⟨h.1, h.2.1, h.2.2.2.2.2.2⟩

/-- C8 (amended): when a mapping update requests valid = TRUE over a fully
linked walk whose leaf entry already has its valid bit set, no error is
returned and the already-mapped condition is logged, but the leaf entry is
not left as it was: it is overwritten with the freshly computed mapping
value (the masked physical address with the valid bit and the flags OR-ed
in). -/
theorem c8_already_valid_overwrite (s : PTState) (root va pa flags : Nat)
    (hroot : root ≠ 0) (hflags : flags < 4096)
    (h0 : entOk (pathEnt s.mem root va 0))
    (h1 : entOk (pathEnt s.mem root va 1))
    (h2 : entOk (pathEnt s.mem root va 2))
    (hsep : ∀ k, k < 3 → nodeSeq s.mem root va 3 ≠ nodeSeq s.mem root va k)
    (hvalid : pathEnt s.mem root va 3 &&& PAGE_TABLE_ENTRY_VALID_BIT ≠ 0) :
    (updateMapping s root va pa flags true false).1 = Status.success ∧
    (updateMapping s root va pa flags true false).2.2 = true ∧
    (updateMapping s root va pa flags true false).2.1.mem
      (nodeSeq s.mem root va 3) (IDX va 3) = mapLeafVal pa flags := by
  obtain ⟨hst, _, hlog, hleaf, _, _, _⟩ :=
    updateMapping_map s root va pa flags hroot hflags h0 h1 h2 hsep
  refine ⟨hst, ?_, hleaf⟩
  rw [hlog]
  simpa using hvalid

/-- C8 witness: on the handcrafted table whose leaf entry 0x1041 for
va = 0x1000 is already valid, re-mapping the page succeeds, logs the
condition, and leaves the leaf overwritten with the new mapping value. -/
theorem c8_witness :
    (updateMapping { mem := c8mem, alloc := [] } 0x10000 0x1000 0x2000
        (PAGE_TABLE_ACCESS_FLAG ||| PAGE_TABLE_DESCRIPTOR) true false).1 = Status.success ∧
    (updateMapping { mem := c8mem, alloc := [] } 0x10000 0x1000 0x2000
        (PAGE_TABLE_ACCESS_FLAG ||| PAGE_TABLE_DESCRIPTOR) true false).2.2 = true ∧
    (updateMapping { mem := c8mem, alloc := [] } 0x10000 0x1000 0x2000
        (PAGE_TABLE_ACCESS_FLAG ||| PAGE_TABLE_DESCRIPTOR) true false).2.1.mem
      (nodeSeq c8mem 0x10000 0x1000 3) (IDX 0x1000 3) =
      mapLeafVal 0x2000 (PAGE_TABLE_ACCESS_FLAG ||| PAGE_TABLE_DESCRIPTOR) := by
  exact c8_already_valid_overwrite { mem := c8mem, alloc := [] } 0x10000 0x1000 0x2000
    (PAGE_TABLE_ACCESS_FLAG ||| PAGE_TABLE_DESCRIPTOR)
    (by decide) (by decide) (by decide) (by decide) (by decide)
    (by
      intro k hk
      have h3 : k = 0 ∨ k = 1 ∨ k = 2 := by omega
      rcases h3 with h | h | h <;> subst h <;> decide)
    (by decide)

/-! ### Arithmetic of the page-range bounds -/

end Smmu
